import Mathlib

/-!
# Verification of the enemy navigation and tactical AI core

Shallow embedding of the navigation / tactical-AI subsystem of the game
repository, covering:

* `src/Actors/enemies/utils/Pathfinding.ts` (grid building, A* search with
  result cache, direction lookup),
* `src/Actors/enemies/utils/ObstacleAvoidance.ts` (steering avoidance),
* `src/Actors/enemies/behaviors/HideAndShootBehavior.ts` (tactical cover AI),
* the relevant constants of `src/config.ts` (`GameConfig`).

Modelling conventions:

* The source computes with JavaScript numbers.  The pathfinding model uses
  integer pixel coordinates (`ℤ`): every operation of the source on
  coordinates (floor division by the cell size, cell-center computation,
  distance *comparisons* against constant thresholds) is exact on integers,
  and all concrete inputs appearing in the spec are integral.  Distance
  comparisons `dist(u,v) < t` (with `t ≥ 0`) are embedded as
  `sqDist u v < t^2`, which is equivalent.
* A* path costs are values `a + b·√2` with `a b : ℤ` (the exact real
  numbers the source approximates with doubles); the type `Cost` below
  implements their exact order, with a proof (`Cost.ltB_iff`) that the
  Boolean comparison agrees with the real order.
* The steering / tactical layer genuinely needs norms, so it is embedded
  over `ℝ` (`Vec` below); those definitions are `noncomputable` and
  concrete evaluations are done with `simp` / `norm_num`.
* Mutable static class state (`Pathfinding.grid`, `pathCache`, …) is passed
  as an explicit state record `PFState`; `Date.now()` becomes an explicit
  `now : ℤ` argument (milliseconds).
* JavaScript `Map` insertion-order semantics are modelled by an association
  list: `set` of a present key updates it in place, `set` of a fresh key
  appends, the "first key" is the head.
-/

set_option maxHeartbeats 1000000

namespace Nav

/-! ## Exact costs `a + b·√2`

`Cost.ltB` decides `a₁ + b₁√2 < a₂ + b₂√2` with integer arithmetic only,
so that the embedded A* is executable; `Cost.ltB_iff` proves it equal to
the real order that the source's floating-point comparison approximates. -/

structure Cost where
  a : ℤ
  b : ℤ
deriving DecidableEq, Repr

def Cost.add (u v : Cost) : Cost := ⟨u.a + v.a, u.b + v.b⟩

/-- The real number represented by a `Cost`. -/
noncomputable def Cost.toReal (u : Cost) : ℝ := u.a + u.b * Real.sqrt 2

/-- Decide `u < v` exactly: with `p = v.a - u.a`, `q = v.b - u.b`, the
question is whether `0 < p + q·√2`. -/
def Cost.ltB (u v : Cost) : Bool :=
  let p := v.a - u.a
  let q := v.b - u.b
  if 0 ≤ p then
    (if 0 ≤ q then decide (0 < p ∨ 0 < q) else decide (2 * q ^ 2 < p ^ 2))
  else
    (if 0 ≤ q then decide (p ^ 2 < 2 * q ^ 2) else false)

theorem sqrt_two_sq : Real.sqrt 2 * Real.sqrt 2 = 2 :=
  Real.mul_self_sqrt (by norm_num)

theorem one_lt_sqrt_two : (1 : ℝ) < Real.sqrt 2 := by
  have h := sqrt_two_sq
  nlinarith [Real.sqrt_nonneg 2]

theorem Cost.ltB_iff (u v : Cost) : Cost.ltB u v = true ↔ u.toReal < v.toReal := by
  have hs := sqrt_two_sq
  have hs0 : (0:ℝ) ≤ Real.sqrt 2 := Real.sqrt_nonneg 2
  have hs1 : (0:ℝ) < Real.sqrt 2 := lt_trans one_pos one_lt_sqrt_two
  unfold Cost.ltB Cost.toReal
  set p : ℤ := v.a - u.a with hp
  set q : ℤ := v.b - u.b with hq
  have hgoal : ((u.a : ℝ) + u.b * Real.sqrt 2 < v.a + v.b * Real.sqrt 2) ↔
      (0 : ℝ) < (p : ℝ) + (q : ℝ) * Real.sqrt 2 := by
    rw [hp, hq]; push_cast; constructor <;> intro h <;> nlinarith
  rw [hgoal]
  by_cases h1 : 0 ≤ p <;> by_cases h2 : 0 ≤ q <;>
    simp only [h1, h2, if_true, if_false, decide_eq_true_eq]
  · -- 0 ≤ p, 0 ≤ q
    have hpr : (0:ℝ) ≤ p := by exact_mod_cast h1
    have hqr : (0:ℝ) ≤ q := by exact_mod_cast h2
    constructor
    · rintro (h | h)
      · have hp' : (0:ℝ) < p := by exact_mod_cast h
        have : (0:ℝ) ≤ (q : ℝ) * Real.sqrt 2 := mul_nonneg hqr hs0
        linarith
      · have hq' : (0:ℝ) < q := by exact_mod_cast h
        have := mul_pos hq' hs1
        linarith
    · intro h
      by_contra hc
      push_neg at hc
      obtain ⟨hc1, hc2⟩ := hc
      have e1 : p = 0 := le_antisymm hc1 h1
      have e2 : q = 0 := le_antisymm hc2 h2
      rw [e1, e2] at h; simp at h
  · -- 0 ≤ p, q < 0 : claim 2q² < p² ↔ 0 < p + q√2
    push_neg at h2
    have hpr : (0:ℝ) ≤ p := by exact_mod_cast h1
    have hqr : (q:ℝ) < 0 := by exact_mod_cast h2
    have hq2 : (0:ℝ) < -((q:ℝ) * Real.sqrt 2) := by
      have := mul_pos (by linarith : (0:ℝ) < -(q:ℝ)) hs1
      linarith [this]
    constructor
    · intro h
      have h' : (2:ℝ) * (q:ℝ) ^ 2 < (p:ℝ) ^ 2 := by exact_mod_cast h
      by_contra hc
      push_neg at hc
      have h5 : -((q:ℝ) * Real.sqrt 2) ≥ (p:ℝ) := by linarith
      have h6 := mul_self_le_mul_self hpr (by linarith : (p:ℝ) ≤ -((q:ℝ) * Real.sqrt 2))
      nlinarith [h6, hs]
    · intro h
      have h3 : (0:ℝ) < (p:ℝ) - (q:ℝ) * Real.sqrt 2 := by linarith
      have h4 := mul_pos h h3
      have : (2:ℝ) * (q:ℝ) ^ 2 < (p:ℝ) ^ 2 := by nlinarith [h4, hs]
      exact_mod_cast this
  · -- p < 0, 0 ≤ q : claim p² < 2q² ↔ 0 < p + q√2
    push_neg at h1
    have hpr : (p:ℝ) < 0 := by exact_mod_cast h1
    have hqr : (0:ℝ) ≤ q := by exact_mod_cast h2
    have hq2 : (0:ℝ) ≤ (q:ℝ) * Real.sqrt 2 := mul_nonneg hqr hs0
    constructor
    · intro h
      have h' : (p:ℝ) ^ 2 < 2 * (q:ℝ) ^ 2 := by exact_mod_cast h
      by_contra hc
      push_neg at hc
      have h5 : (q:ℝ) * Real.sqrt 2 ≤ -(p:ℝ) := by linarith
      have h6 := mul_self_le_mul_self hq2 h5
      nlinarith [h6, hs]
    · intro h
      have h5 : -(p:ℝ) < (q:ℝ) * Real.sqrt 2 := by linarith
      have h6 := mul_self_lt_mul_self (by linarith : (0:ℝ) ≤ -(p:ℝ)) h5
      have : (p:ℝ) ^ 2 < 2 * (q:ℝ) ^ 2 := by nlinarith [h6, hs]
      exact_mod_cast this
  · -- p < 0, q < 0
    push_neg at h1 h2
    have hpr : (p:ℝ) < 0 := by exact_mod_cast h1
    have hqr : (q:ℝ) < 0 := by exact_mod_cast h2
    have hq2 : (q:ℝ) * Real.sqrt 2 ≤ 0 :=
      mul_nonpos_iff.mpr (Or.inr ⟨le_of_lt hqr, hs0⟩)
    constructor
    · intro h; exact absurd h (by simp)
    · intro h; linarith

theorem Cost.toReal_add (u v : Cost) :
    (Cost.add u v).toReal = u.toReal + v.toReal := by
  unfold Cost.add Cost.toReal
  push_cast
  ring

/-! ## 2-D real vectors

Embedding of the excalibur `Vector` operations the navigation code uses.
`normalize` of the zero vector returns `(0, 1)` (excalibur's documented
fallback); every use in the embedded code is guarded by a positive size,
so the fallback value never matters for the theorems below. -/

@[ext]
structure Vec where
  x : ℝ
  y : ℝ

def Vec.zero : Vec := ⟨0, 0⟩

noncomputable def Vec.size (v : Vec) : ℝ := Real.sqrt (v.x ^ 2 + v.y ^ 2)

def Vec.add (u v : Vec) : Vec := ⟨u.x + v.x, u.y + v.y⟩

def Vec.sub (u v : Vec) : Vec := ⟨u.x - v.x, u.y - v.y⟩

def Vec.scale (v : Vec) (c : ℝ) : Vec := ⟨v.x * c, v.y * c⟩

def Vec.dot (u v : Vec) : ℝ := u.x * v.x + u.y * v.y

noncomputable def Vec.distance (u v : Vec) : ℝ := (u.sub v).size

noncomputable def Vec.normalize (v : Vec) : Vec :=
  if 0 < v.size then ⟨v.x / v.size, v.y / v.size⟩ else ⟨0, 1⟩

/-! ## Pathfinding model (`Pathfinding.ts`)

World coordinates are integer pixels (see the header comment).  The
mutable statics of the `Pathfinding` class become the record `PFState`;
`engine` is replaced by the data the class reads from it: the world
dimensions (`GameConfig.width/height`) and the scene's obstacle bounds.
`Date.now()` is the explicit argument `now`. -/

structure WorldConfig where
  width : ℤ
  height : ℤ
deriving DecidableEq, Repr

structure PathfindingConfig where
  cellSize : ℤ
  obstaclePadding : ℤ
deriving DecidableEq, Repr

/-- `DEFAULT_CONFIG` of `Pathfinding.ts`. -/
def defaultPFConfig : PathfindingConfig := ⟨16, 8⟩

/-- An obstacle's `collider.bounds` (axis-aligned rectangle). -/
structure Bounds where
  left : ℤ
  right : ℤ
  top : ℤ
  bottom : ℤ
deriving DecidableEq, Repr

structure CachedPath where
  start : ℤ × ℤ
  goal : ℤ × ℤ
  path : List (ℤ × ℤ)
  timestamp : ℤ
deriving DecidableEq, Repr

/-- Cache keys: the source formats the two grid cells into a string
`"x,y:x,y"`; that formatting is injective on pairs of cells, so the key is
modelled as the pair of cells itself. -/
abbrev CacheKey := (ℤ × ℤ) × (ℤ × ℤ)

structure PFState where
  grid : Option (List (List Bool))
  gridWidth : ℤ
  gridHeight : ℤ
  lastObstacleUpdate : ℤ
  pathCache : List (CacheKey × CachedPath)
deriving DecidableEq, Repr

def obstacleUpdateInterval : ℤ := 500

def cacheTimeout : ℤ := 200

def cacheDistanceThreshold : ℤ := 20

/-- JS `Map.get`. -/
def mapGet (m : List (CacheKey × CachedPath)) (k : CacheKey) : Option CachedPath :=
  match m with
  | [] => none
  | (k', v) :: rest => if k' = k then some v else mapGet rest k

/-- JS `Map.set`: updating a present key keeps its insertion position, a
fresh key is appended at the end (JS maps iterate in insertion order). -/
def mapSet (m : List (CacheKey × CachedPath)) (k : CacheKey) (v : CachedPath) :
    List (CacheKey × CachedPath) :=
  match m with
  | [] => [(k, v)]
  | (k', v') :: rest => if k' = k then (k, v) :: rest else (k', v') :: mapSet rest k v

/-- `pathCache.delete(pathCache.keys().next().value)`: the first key of a
JS map is the oldest entry, so deleting it drops the head. -/
def mapEvictFirst (m : List (CacheKey × CachedPath)) : List (CacheKey × CachedPath) :=
  match m with
  | [] => []
  | _ :: rest => rest

/-- `Math.ceil(a / b)` for integer `a` and positive integer `b`. -/
def ceilDiv (a b : ℤ) : ℤ := -(Int.fdiv (-a) b)

/-- Integers from `lo` to `hi` inclusive (empty when `hi < lo`). -/
def intRange (lo hi : ℤ) : List ℤ :=
  (List.range (hi + 1 - lo).toNat).map (fun i : ℕ => lo + (i : ℤ))

/-- `this.grid[y][x] = false` (indices are in range whenever the clamped
loop bounds are; out-of-range `List.set` is a no-op, matching the
source's `if (this.grid[y])` guard). -/
def setCell (g : List (List Bool)) (x y : ℤ) : List (List Bool) :=
  match g.get? y.toNat with
  | none => g
  | some row => g.set y.toNat (row.set x.toNat false)

def cellAt (g : List (List Bool)) (x y : ℤ) : Bool :=
  (g.getD y.toNat []).getD x.toNat false

/-- The inner loops of `buildGrid` for one obstacle: mark every cell in the
clamped padded index rectangle as unwalkable. -/
def markObstacle (cfg : PathfindingConfig) (gw gh : ℤ) (b : Bounds)
    (g : List (List Bool)) : List (List Bool) :=
  let padding := cfg.obstaclePadding
  let minX := max 0 (Int.fdiv (b.left - padding) cfg.cellSize)
  let maxX := min (gw - 1) (Int.fdiv (b.right + padding) cfg.cellSize)
  let minY := max 0 (Int.fdiv (b.top - padding) cfg.cellSize)
  let maxY := min (gh - 1) (Int.fdiv (b.bottom + padding) cfg.cellSize)
  (intRange minY maxY).foldl
    (fun g' y => (intRange minX maxX).foldl (fun g'' x => setCell g'' x y) g') g

/-- `buildGrid`: fresh all-walkable `gridHeight × gridWidth` array, then
every obstacle marks its padded footprint. Returns
`(gridWidth, gridHeight, grid)`. -/
def buildGridData (world : WorldConfig) (cfg : PathfindingConfig)
    (obstacles : List Bounds) : ℤ × ℤ × List (List Bool) :=
  let gw := ceilDiv world.width cfg.cellSize
  let gh := ceilDiv world.height cfg.cellSize
  let g0 := List.replicate gh.toNat (List.replicate gw.toNat true)
  (gw, gh, obstacles.foldl (fun g b => markObstacle cfg gw gh b g) g0)

/-- `ensureGridUpdated`. -/
def ensureGridUpdated (world : WorldConfig) (cfg : PathfindingConfig)
    (obstacles : List Bounds) (now : ℤ) (st : PFState) : PFState :=
  if st.grid = none ∨ now - st.lastObstacleUpdate > obstacleUpdateInterval then
    let d := buildGridData world cfg obstacles
    { st with grid := some d.2.2, gridWidth := d.1, gridHeight := d.2.1,
              lastObstacleUpdate := now }
  else st

/-- `worldToGrid`: `Math.floor(pos / cellSize)` componentwise. -/
def worldToGrid (cfg : PathfindingConfig) (p : ℤ × ℤ) : ℤ × ℤ :=
  (Int.fdiv p.1 cfg.cellSize, Int.fdiv p.2 cfg.cellSize)

/-- `gridToWorld`: center of the cell (`cellSize` is even in every
configuration used, so `cellSize / 2` is exact). -/
def gridToWorld (cfg : PathfindingConfig) (gx gy : ℤ) : ℤ × ℤ :=
  (gx * cfg.cellSize + Int.fdiv cfg.cellSize 2,
   gy * cfg.cellSize + Int.fdiv cfg.cellSize 2)

/-- `isWalkable`: fails closed out of bounds or with no generated grid. -/
def isWalkable (st : PFState) (x y : ℤ) : Bool :=
  if x < 0 ∨ x ≥ st.gridWidth ∨ y < 0 ∨ y ≥ st.gridHeight then false
  else
    match st.grid with
    | none => false
    | some g => cellAt g x y

/-- A* bookkeeping node (`GridNode` of the source); `parent` links are used
only to reconstruct the final path. -/
inductive GridNode where
  | mk (x y : ℤ) (walkable : Bool) (g h f : Cost) (parent : Option GridNode)

def GridNode.x : GridNode → ℤ
  | .mk x _ _ _ _ _ _ => x

def GridNode.y : GridNode → ℤ
  | .mk _ y _ _ _ _ _ => y

def GridNode.gCost : GridNode → Cost
  | .mk _ _ _ g _ _ _ => g

def GridNode.hCost : GridNode → Cost
  | .mk _ _ _ _ h _ _ => h

def GridNode.fCost : GridNode → Cost
  | .mk _ _ _ _ _ f _ => f

def GridNode.parent : GridNode → Option GridNode
  | .mk _ _ _ _ _ _ p => p

instance : Inhabited GridNode := ⟨.mk 0 0 true ⟨0, 0⟩ ⟨0, 0⟩ ⟨0, 0⟩ none⟩

/-- Neighbor direction list, in the source's order. -/
def directions : List (ℤ × ℤ) :=
  [(-1, -1), (0, -1), (1, -1), (-1, 0), (1, 0), (-1, 1), (0, 1), (1, 1)]

/-- `getNeighbors`: walkable 8-neighbors as fresh zero-cost nodes. -/
def getNeighbors (st : PFState) (node : GridNode) : List GridNode :=
  directions.filterMap (fun d =>
    if isWalkable st (node.x + d.1) (node.y + d.2) then
      some (GridNode.mk (node.x + d.1) (node.y + d.2) true ⟨0, 0⟩ ⟨0, 0⟩ ⟨0, 0⟩ none)
    else none)

/-- `heuristic`: `max(dx,dy) + (√2 − 1)·min(dx,dy)` represented exactly as
`(max − min) + min·√2`. -/
def heuristic (n g : ℤ × ℤ) : Cost :=
  let dx := (n.1 - g.1).natAbs
  let dy := (n.2 - g.2).natAbs
  ⟨(max dx dy - min dx dy : ℕ), (min dx dy : ℕ)⟩

theorem heuristic_toReal (n g : ℤ × ℤ) :
    (heuristic n g).toReal =
      max ((n.1 - g.1).natAbs : ℝ) ((n.2 - g.2).natAbs : ℝ) +
        (Real.sqrt 2 - 1) * min ((n.1 - g.1).natAbs : ℝ) ((n.2 - g.2).natAbs : ℝ) := by
  unfold heuristic Cost.toReal
  simp only []
  rcases le_total ((n.1 - g.1).natAbs) ((n.2 - g.2).natAbs) with h | h
  · rw [Nat.max_eq_right h, Nat.min_eq_left h,
      max_eq_right (by exact_mod_cast h : ((n.1 - g.1).natAbs : ℝ) ≤ _),
      min_eq_left (by exact_mod_cast h : ((n.1 - g.1).natAbs : ℝ) ≤ _)]
    push_cast [Int.cast_natAbs, h]
    ring
  · rw [Nat.max_eq_left h, Nat.min_eq_right h,
      max_eq_left (by exact_mod_cast h : ((n.2 - g.2).natAbs : ℝ) ≤ _),
      min_eq_right (by exact_mod_cast h : ((n.2 - g.2).natAbs : ℝ) ≤ _)]
    push_cast [Int.cast_natAbs, h]
    ring

/-- Squared Euclidean distance; every distance *comparison* of the source
(`distance(..) < t` with `t ≥ 0`) is embedded as `sqDist .. < t²`. -/
def sqDist (u v : ℤ × ℤ) : ℤ := (u.1 - v.1) ^ 2 + (u.2 - v.2) ^ 2

/-- `getCacheKey`. -/
def getCacheKey (cfg : PathfindingConfig) (start goal : ℤ × ℤ) : CacheKey :=
  (worldToGrid cfg start, worldToGrid cfg goal)

/-- `isCacheValid`. -/
def isCacheValid (cached : CachedPath) (start goal : ℤ × ℤ) (now : ℤ) : Bool :=
  if now - cached.timestamp > cacheTimeout then false
  else
    decide (sqDist cached.start start < cacheDistanceThreshold ^ 2 ∧
      sqDist cached.goal goal < cacheDistanceThreshold ^ 2)

/-- The `for (let i = 1; ...)` scan for the open node with the lowest `f`
(first index wins on ties). -/
def findMinIdxGo (i bestIdx : ℕ) (bestF : Cost) : List GridNode → ℕ
  | [] => bestIdx
  | n :: rest =>
      if Cost.ltB n.fCost bestF then findMinIdxGo (i + 1) i n.fCost rest
      else findMinIdxGo (i + 1) bestIdx bestF rest

def findMinIndex : List GridNode → ℕ
  | [] => 0
  | n :: rest => findMinIdxGo 1 0 n.fCost rest

/-- In-place update of the first open node at `(nx, ny)`
(`existingOpen.g/f/parent = ...`). -/
def updateOpen (nx ny : ℤ) (tg : Cost) (par : GridNode) : List GridNode → List GridNode
  | [] => []
  | n :: rest =>
      if n.x = nx ∧ n.y = ny then
        GridNode.mk n.x n.y true tg n.hCost (tg.add n.hCost) (some par) :: rest
      else n :: updateOpen nx ny tg par rest

/-- The cost of one step: `√2` when the move is diagonal
(`|Δx| = 1 ∧ |Δy| = 1`), `1` otherwise. -/
def stepCost (n m : ℤ × ℤ) : Cost :=
  if (m.1 - n.1).natAbs = 1 ∧ (m.2 - n.2).natAbs = 1 then ⟨0, 1⟩ else ⟨1, 0⟩

/-- The body of the `for (const neighbor of neighbors)` loop. -/
def processNeighbor (goal : ℤ × ℤ) (closed : List (ℤ × ℤ)) (current : GridNode)
    (openSet : List GridNode) (nb : GridNode) : List GridNode :=
  if closed.contains (nb.x, nb.y) then openSet
  else
    let moveCost := stepCost (current.x, current.y) (nb.x, nb.y)
    let tentativeG := current.gCost.add moveCost
    match openSet.find? (fun n => n.x == nb.x && n.y == nb.y) with
    | none =>
        let h := heuristic (nb.x, nb.y) goal
        openSet ++ [GridNode.mk nb.x nb.y true tentativeG h (tentativeG.add h) (some current)]
    | some existing =>
        if Cost.ltB tentativeG existing.gCost then updateOpen nb.x nb.y tentativeG current openSet
        else openSet

/-- Path reconstruction by walking parent links (the source `unshift`s, so
the result is in start→goal order). -/
def reconstructPath (cfg : PathfindingConfig) : GridNode → List (ℤ × ℤ)
  | .mk x y _ _ _ _ none => [gridToWorld cfg x y]
  | .mk x y _ _ _ _ (some p) => reconstructPath cfg p ++ [gridToWorld cfg x y]

/-- The `while (openSet.length > 0)` loop.  The fuel `gridWidth·gridHeight + 1`
is an upper bound on the number of iterations: each iteration moves one
in-bounds cell into the closed set, closed cells are never re-inserted into
the open set, and the open set holds at most one node per cell. -/
def astarLoop (cfg : PathfindingConfig) (st : PFState) (goal : ℤ × ℤ) :
    ℕ → List GridNode → List (ℤ × ℤ) → Option (List (ℤ × ℤ))
  | 0, _, _ => none
  | _ + 1, [], _ => none
  | fuel + 1, op :: ops, closed =>
      let openSet := op :: ops
      let ci := findMinIndex openSet
      let current := openSet.getD ci default
      let openSet' := openSet.eraseIdx ci
      let closed' := (current.x, current.y) :: closed
      if current.x = goal.1 ∧ current.y = goal.2 then
        some (reconstructPath cfg current)
      else
        let neighbors := getNeighbors st current
        astarLoop cfg st goal fuel
          (neighbors.foldl (processNeighbor goal closed' current) openSet') closed'

/-- `findNearestWalkable`: spiral ring search of radius 1..maxRadius, in the
source's loop order (radius outer, then `dx`, then `dy`). -/
def findNearestWalkable (st : PFState) (x y : ℤ) (maxRadius : ℕ) : Option (ℤ × ℤ) :=
  (List.range maxRadius).findSome? (fun r0 =>
    let radius : ℤ := (r0 : ℤ) + 1
    (intRange (-radius) radius).findSome? (fun dx =>
      (intRange (-radius) radius).findSome? (fun dy =>
        if (dx.natAbs = radius.toNat ∨ dy.natAbs = radius.toNat) ∧
            isWalkable st (x + dx) (y + dy) = true then
          some (x + dx, y + dy)
        else none)))

/-- `findPath`: returns the waypoint list and the updated static state. -/
def findPath (world : WorldConfig) (cfg : PathfindingConfig) (obstacles : List Bounds)
    (now : ℤ) (start goal : ℤ × ℤ) (st0 : PFState) : List (ℤ × ℤ) × PFState :=
  let st := ensureGridUpdated world cfg obstacles now st0
  match st.grid with
  | none => ([], st)
  | some _ =>
    let cacheKey := getCacheKey cfg start goal
    let cachedHit : Option (List (ℤ × ℤ)) :=
      match mapGet st.pathCache cacheKey with
      | some cached =>
          if isCacheValid cached start goal now then
            if 0 < cached.path.length then
              -- the source copies `cached.path` into `adjustedPath`
              if sqDist start (cached.path.headD (0, 0)) > (cacheDistanceThreshold * 2) ^ 2 then
                none  -- path too stale: fall through and recalculate
              else some cached.path
            else none  -- an empty cached path also falls through to the search
          else none
      | none => none
    match cachedHit with
    | some p => (p, st)
    | none =>
      let startGrid := worldToGrid cfg start
      let goalGrid := worldToGrid cfg goal
      let startCell : Option (ℤ × ℤ) :=
        if isWalkable st startGrid.1 startGrid.2 then some startGrid
        else findNearestWalkable st startGrid.1 startGrid.2 5
      match startCell with
      | none => ([], st)
      | some sg =>
        let goalCell : Option (ℤ × ℤ) :=
          if isWalkable st goalGrid.1 goalGrid.2 then some goalGrid
          else findNearestWalkable st goalGrid.1 goalGrid.2 5
        match goalCell with
        | none => ([], st)
        | some gg =>
          let startH := heuristic sg gg
          let startNode := GridNode.mk sg.1 sg.2 true ⟨0, 0⟩ startH startH none
          match astarLoop cfg st gg ((st.gridWidth * st.gridHeight).toNat + 1) [startNode] [] with
          | some path =>
              let newCache := mapSet st.pathCache cacheKey ⟨start, goal, path, now⟩
              let newCache' :=
                if 50 < newCache.length then mapEvictFirst newCache else newCache
              (path, { st with pathCache := newCache' })
          | none =>
              -- no path found: cache the empty path (without any size check)
              ([], { st with pathCache := mapSet st.pathCache cacheKey ⟨start, goal, [], now⟩ })

/-- `getDirectionToGoal`: direction toward the look-ahead waypoint
(`lookAhead` has default value 1 in the source). -/
noncomputable def getDirectionToGoal (world : WorldConfig) (cfg : PathfindingConfig)
    (obstacles : List Bounds) (now : ℤ) (enemyPos goal : ℤ × ℤ) (lookAhead : ℕ)
    (st : PFState) : Vec × PFState :=
  let r := findPath world cfg obstacles now enemyPos goal st
  let path := r.1
  if path.length = 0 then (Vec.zero, r.2)
  else
    let targetIndex := min lookAhead (path.length - 1)
    let targetWaypoint := path.getD targetIndex (0, 0)
    -- `distanceToWaypoint < cellSize * 0.5` as a squared comparison
    let targetIndex' :=
      if sqDist enemyPos targetWaypoint < Int.fdiv cfg.cellSize 2 ^ 2 ∧
          targetIndex + 1 < path.length then
        targetIndex + 1
      else targetIndex
    let direction := ((path.getD targetIndex' (0, 0)).1 - enemyPos.1,
                      (path.getD targetIndex' (0, 0)).2 - enemyPos.2)
    -- `direction.size === 0` iff both components vanish
    if direction = (0, 0) then (Vec.zero, r.2)
    else (Vec.normalize ⟨(direction.1 : ℝ), (direction.2 : ℝ)⟩, r.2)

/-! ### Characterization of the built grid -/

/-- Well-formed `gh × gw` grid. -/
def GridWF (g : List (List Bool)) (gw gh : ℤ) : Prop :=
  g.length = gh.toNat ∧ ∀ row ∈ g, row.length = gw.toNat

theorem gridWF_setCell {g : List (List Bool)} {gw gh : ℤ} (hwf : GridWF g gw gh)
    (x y : ℤ) : GridWF (setCell g x y) gw gh := by
  obtain ⟨hlen, hrow⟩ := hwf
  unfold setCell
  cases hg : g.get? y.toNat with
  | none => exact ⟨hlen, hrow⟩
  | some row =>
      refine ⟨by simpa using hlen, ?_⟩
      intro r hr
      rcases List.mem_or_eq_of_mem_set hr with h | h
      · exact hrow r h
      · subst h
        rw [List.length_set]
        exact hrow row (List.get?_mem hg)

theorem cellAt_setCell {g : List (List Bool)} {gw gh : ℤ} (hwf : GridWF g gw gh)
    {x y x' y' : ℤ} (hx0 : 0 ≤ x) (hy0 : 0 ≤ y)
    (hx'0 : 0 ≤ x') (hx'w : x' < gw) (hy'0 : 0 ≤ y') (hy'h : y' < gh) :
    cellAt (setCell g x' y') x y =
      if x = x' ∧ y = y' then false else cellAt g x y := by
  obtain ⟨hlen, hrow⟩ := hwf
  have hyl : y'.toNat < g.length := by omega
  have hrl : (g[y'.toNat]).length = gw.toNat := hrow _ (List.getElem_mem hyl)
  have hxl : x'.toNat < (g[y'.toNat]).length := by omega
  unfold setCell cellAt
  rw [List.get?_eq_getElem?, List.getElem?_eq_getElem hyl]
  simp only [List.getD_eq_getElem?_getD]
  by_cases hy : y = y'
  · subst hy
    rw [List.getElem?_set_eq_of_lt _ (by simpa using hyl), List.getElem?_eq_getElem hyl]
    simp only [Option.getD_some]
    by_cases hx : x = x'
    · subst hx
      rw [List.getElem?_set_eq_of_lt _ hxl]
      simp
    · rw [List.getElem?_set_ne (by omega : x'.toNat ≠ x.toNat)]
      simp [hx]
  · rw [List.getElem?_set_ne (by omega : y'.toNat ≠ y.toNat)]
    simp [hy]

theorem mem_intRange {lo hi x : ℤ} : x ∈ intRange lo hi ↔ lo ≤ x ∧ x ≤ hi := by
  unfold intRange
  simp only [List.mem_map, List.mem_range]
  constructor
  · rintro ⟨i, hi', rfl⟩
    omega
  · rintro ⟨h1, h2⟩
    exact ⟨(x - lo).toNat, by omega, by omega⟩

theorem gridWF_foldRow {gw gh : ℤ} (y' : ℤ) (xs : List ℤ) {g : List (List Bool)}
    (hwf : GridWF g gw gh) :
    GridWF (xs.foldl (fun g'' x' => setCell g'' x' y') g) gw gh := by
  induction xs generalizing g with
  | nil => exact hwf
  | cons a rest ih => exact ih (gridWF_setCell hwf a y')

theorem cellAt_foldRow {gw gh : ℤ} (y' : ℤ) (xs : List ℤ) {g : List (List Bool)}
    (hwf : GridWF g gw gh) (hxs : ∀ x' ∈ xs, 0 ≤ x' ∧ x' < gw)
    (hy'0 : 0 ≤ y') (hy'h : y' < gh) {x y : ℤ} (hx0 : 0 ≤ x) (hy0 : 0 ≤ y) :
    cellAt (xs.foldl (fun g'' x' => setCell g'' x' y') g) x y =
      if x ∈ xs ∧ y = y' then false else cellAt g x y := by
  induction xs generalizing g with
  | nil => simp
  | cons a rest ih =>
      simp only [List.foldl_cons]
      rw [ih (gridWF_setCell hwf a y') (fun z hz => hxs z (List.mem_cons_of_mem a hz)),
        cellAt_setCell hwf hx0 hy0 (hxs a (List.mem_cons_self a rest)).1
          (hxs a (List.mem_cons_self a rest)).2 hy'0 hy'h]
      by_cases h1 : x ∈ rest ∧ y = y'
      · simp only [if_pos h1]
        rw [if_pos ⟨List.mem_cons_of_mem a h1.1, h1.2⟩]
      · simp only [if_neg h1]
        by_cases h2 : x = a ∧ y = y'
        · simp only [if_pos h2]
          rw [if_pos ⟨h2.1 ▸ List.mem_cons_self a rest, h2.2⟩]
        · simp only [if_neg h2]
          rw [if_neg (by
            rintro ⟨hm, rfl⟩
            rcases List.mem_cons.mp hm with h | h
            · exact h2 ⟨h, rfl⟩
            · exact h1 ⟨h, rfl⟩)]

theorem gridWF_foldGrid {gw gh : ℤ} (ys xs : List ℤ) {g : List (List Bool)}
    (hwf : GridWF g gw gh) :
    GridWF (ys.foldl (fun g' y' => xs.foldl (fun g'' x' => setCell g'' x' y') g') g)
      gw gh := by
  induction ys generalizing g with
  | nil => exact hwf
  | cons a rest ih => exact ih (gridWF_foldRow a _ hwf)

theorem gridWF_markObstacle {gw gh : ℤ} (cfg : PathfindingConfig) (b : Bounds)
    {g : List (List Bool)} (hwf : GridWF g gw gh) :
    GridWF (markObstacle cfg gw gh b g) gw gh := by
  unfold markObstacle
  exact gridWF_foldGrid _ _ hwf

/-- The padded, grid-clamped index rectangle the marking loops cover. -/
def inMarkRange (cfg : PathfindingConfig) (gw gh : ℤ) (b : Bounds) (x y : ℤ) : Prop :=
  max 0 (Int.fdiv (b.left - cfg.obstaclePadding) cfg.cellSize) ≤ x ∧
  x ≤ min (gw - 1) (Int.fdiv (b.right + cfg.obstaclePadding) cfg.cellSize) ∧
  max 0 (Int.fdiv (b.top - cfg.obstaclePadding) cfg.cellSize) ≤ y ∧
  y ≤ min (gh - 1) (Int.fdiv (b.bottom + cfg.obstaclePadding) cfg.cellSize)

instance (cfg : PathfindingConfig) (gw gh : ℤ) (b : Bounds) (x y : ℤ) :
    Decidable (inMarkRange cfg gw gh b x y) := by
  unfold inMarkRange
  infer_instance

theorem cellAt_markObstacle {gw gh : ℤ} (cfg : PathfindingConfig) (b : Bounds)
    {g : List (List Bool)} (hwf : GridWF g gw gh) {x y : ℤ}
    (hx0 : 0 ≤ x) (hy0 : 0 ≤ y) :
    cellAt (markObstacle cfg gw gh b g) x y =
      if inMarkRange cfg gw gh b x y then false else cellAt g x y := by
  unfold markObstacle inMarkRange
  set minX := max 0 (Int.fdiv (b.left - cfg.obstaclePadding) cfg.cellSize) with hminX
  set maxX := min (gw - 1) (Int.fdiv (b.right + cfg.obstaclePadding) cfg.cellSize) with hmaxX
  set minY := max 0 (Int.fdiv (b.top - cfg.obstaclePadding) cfg.cellSize) with hminY
  set maxY := min (gh - 1) (Int.fdiv (b.bottom + cfg.obstaclePadding) cfg.cellSize) with hmaxY
  have hy' : ∀ y' ∈ intRange minY maxY, 0 ≤ y' ∧ y' < gh := by
    intro z hz
    rw [mem_intRange] at hz
    omega
  have hx' : ∀ x' ∈ intRange minX maxX, 0 ≤ x' ∧ x' < gw := by
    intro z hz
    rw [mem_intRange] at hz
    omega
  have main : ∀ (ys : List ℤ) (g : List (List Bool)), GridWF g gw gh →
      (∀ y' ∈ ys, 0 ≤ y' ∧ y' < gh) →
      cellAt (ys.foldl (fun g' y' =>
          (intRange minX maxX).foldl (fun g'' x' => setCell g'' x' y') g') g) x y =
        if x ∈ intRange minX maxX ∧ y ∈ ys then false else cellAt g x y := by
    intro ys
    induction ys with
    | nil => intro g _ _; simp
    | cons a rest ih =>
        intro g hwfg hys
        simp only [List.foldl_cons]
        rw [ih _ (gridWF_foldRow a _ hwfg) (fun z hz => hys z (List.mem_cons_of_mem a hz)),
          cellAt_foldRow a _ hwfg hx' (hys a (List.mem_cons_self a rest)).1
            (hys a (List.mem_cons_self a rest)).2 hx0 hy0]
        by_cases h1 : x ∈ intRange minX maxX ∧ y ∈ rest
        · simp only [if_pos h1]
          rw [if_pos ⟨h1.1, List.mem_cons_of_mem a h1.2⟩]
        · simp only [if_neg h1]
          by_cases h2 : x ∈ intRange minX maxX ∧ y = a
          · simp only [if_pos h2]
            rw [if_pos ⟨h2.1, h2.2 ▸ List.mem_cons_self a rest⟩]
          · simp only [if_neg h2]
            rw [if_neg (by
              rintro ⟨hm, hmem⟩
              rcases List.mem_cons.mp hmem with h | h
              · exact h2 ⟨hm, h⟩
              · exact h1 ⟨hm, h⟩)]
  rw [main _ g hwf hy']
  by_cases hcond : minX ≤ x ∧ x ≤ maxX ∧ minY ≤ y ∧ y ≤ maxY
  · rw [if_pos ⟨mem_intRange.mpr ⟨hcond.1, hcond.2.1⟩, mem_intRange.mpr ⟨hcond.2.2.1, hcond.2.2.2⟩⟩,
      if_pos hcond]
  · rw [if_neg (by
      rintro ⟨hmx, hmy⟩
      rw [mem_intRange] at hmx hmy
      exact hcond ⟨hmx.1, hmx.2, hmy.1, hmy.2⟩), if_neg hcond]

theorem gridWF_replicate (gw gh : ℤ) :
    GridWF (List.replicate gh.toNat (List.replicate gw.toNat true)) gw gh := by
  constructor
  · simp
  · intro row hrow
    rw [List.eq_of_mem_replicate hrow]
    simp

theorem cellAt_replicate {gw gh x y : ℤ} (hx0 : 0 ≤ x) (hxw : x < gw)
    (hy0 : 0 ≤ y) (hyh : y < gh) :
    cellAt (List.replicate gh.toNat (List.replicate gw.toNat true)) x y = true := by
  unfold cellAt
  simp only [List.getD_eq_getElem?_getD, List.getElem?_replicate,
    if_pos (show y.toNat < gh.toNat by omega), Option.getD_some,
    if_pos (show x.toNat < gw.toNat by omega)]

/-- The cells marked unwalkable by `buildGrid` are exactly those covered by
some obstacle's padded clamped index rectangle. -/
theorem cellAt_buildGridData (world : WorldConfig) (cfg : PathfindingConfig)
    (obs : List Bounds) {x y : ℤ} (hx0 : 0 ≤ x)
    (hxw : x < (buildGridData world cfg obs).1) (hy0 : 0 ≤ y)
    (hyh : y < (buildGridData world cfg obs).2.1) :
    cellAt (buildGridData world cfg obs).2.2 x y =
      if ∃ b ∈ obs, inMarkRange cfg (buildGridData world cfg obs).1
          (buildGridData world cfg obs).2.1 b x y then false else true := by
  unfold buildGridData at *
  simp only at *
  set gw := ceilDiv world.width cfg.cellSize with hgw
  set gh := ceilDiv world.height cfg.cellSize with hgh
  have main : ∀ (l : List Bounds) (g : List (List Bool)), GridWF g gw gh →
      cellAt (l.foldl (fun g' b => markObstacle cfg gw gh b g') g) x y =
        if ∃ b ∈ l, inMarkRange cfg gw gh b x y then false else cellAt g x y := by
    intro l
    induction l with
    | nil => intro g _; simp
    | cons a rest ih =>
        intro g hwfg
        simp only [List.foldl_cons]
        rw [ih _ (gridWF_markObstacle cfg a hwfg),
          cellAt_markObstacle cfg a hwfg hx0 hy0]
        by_cases h1 : ∃ b ∈ rest, inMarkRange cfg gw gh b x y
        · rw [if_pos h1, if_pos (by
            obtain ⟨b, hb, hr⟩ := h1
            exact ⟨b, List.mem_cons_of_mem a hb, hr⟩)]
        · rw [if_neg h1]
          by_cases h2 : inMarkRange cfg gw gh a x y
          · rw [if_pos h2, if_pos ⟨a, List.mem_cons_self a rest, h2⟩]
          · rw [if_neg h2, if_neg (by
              rintro ⟨b, hb, hr⟩
              rcases List.mem_cons.mp hb with h | h
              · exact h2 (h ▸ hr)
              · exact h1 ⟨b, h, hr⟩)]
  rw [main obs _ (gridWF_replicate gw gh), cellAt_replicate hx0 hxw hy0 hyh]

theorem fdiv_le_iff {c : ℤ} (hc : 0 < c) (L x : ℤ) :
    Int.fdiv L c ≤ x ↔ L < (x + 1) * c := by
  rw [Int.fdiv_eq_ediv _ (le_of_lt hc)]
  constructor
  · intro h
    have := Int.lt_add_one_iff.mpr h
    exact (Int.ediv_lt_iff_lt_mul hc).mp this
  · intro h
    exact Int.lt_add_one_iff.mp ((Int.ediv_lt_iff_lt_mul hc).mpr h)

theorem le_fdiv_iff {c : ℤ} (hc : 0 < c) (R x : ℤ) :
    x ≤ Int.fdiv R c ↔ x * c ≤ R := by
  rw [Int.fdiv_eq_ediv _ (le_of_lt hc)]
  exact Int.le_ediv_iff_mul_le hc

/-! ## Steering avoidance model (`ObstacleAvoidance.ts`) -/

structure AvoidanceConfig where
  lookAheadDistance : ℝ
  avoidanceRadius : ℝ
  avoidanceForce : ℝ
  maxAvoidanceAngle : ℝ

/-- `DEFAULT_CONFIG` of `ObstacleAvoidance.ts` (60 px look-ahead, 50 px
radius, force 0.4, max deviation `π/3`). -/
noncomputable def defaultAvoidConfig : AvoidanceConfig := ⟨60, 50, 0.4, Real.pi / 3⟩

/-- An `Obstacle` actor as seen by the steering / tactical layer: `pos` is
its center, `width`/`height` its footprint. -/
structure ObstacleB where
  pos : Vec
  width : ℝ
  height : ℝ

/-- `detectObstaclesAhead`.  The `obstacles` argument is the scene's
`Obstacle` actors (the `actor instanceof Obstacle && actor !== enemy` filter
keeps exactly those, since the enemy itself is not an `Obstacle`).  The
source also computes a look-ahead point, but never uses it in the
condition, so it is omitted here.  `filter` keeps the source's push
order. -/
noncomputable def detectObstaclesAhead (enemyPos desiredVelocity : Vec)
    (obstacles : List ObstacleB) (config : AvoidanceConfig) : List ObstacleB :=
  if desiredVelocity.size = 0 then []
  else
    let movementDirection := desiredVelocity.normalize
    obstacles.filter (fun actor =>
      decide (enemyPos.distance actor.pos ≤ config.avoidanceRadius) &&
        (decide (0 < movementDirection.dot ((actor.pos.sub enemyPos).normalize)) ||
          decide (enemyPos.distance actor.pos ≤ config.avoidanceRadius * 0.6)))

/-- The repulsion-summing loop of `calculateAvoidanceVector`: for each
obstacle, a vector pointing away from it weighted by
`1 − distance/avoidanceRadius`, skipping obstacles at distance 0. -/
noncomputable def repulsionSum (enemyPos : Vec) (obstacles : List ObstacleB)
    (config : AvoidanceConfig) : Vec :=
  obstacles.foldl (fun acc obstacle =>
    let toObstacle := obstacle.pos.sub enemyPos
    let distance := toObstacle.size
    if distance = 0 then acc
    else
      let repulsionStrength := 1 - distance / config.avoidanceRadius
      let repulsionDirection := toObstacle.normalize.scale (-1)
      acc.add (repulsionDirection.scale repulsionStrength)) Vec.zero

/-- `calculateAvoidanceVector`. -/
noncomputable def calculateAvoidanceVector (enemyPos : Vec) (obstacles : List ObstacleB)
    (desiredVelocity : Vec) (config : AvoidanceConfig) : Vec :=
  if obstacles.length = 0 then Vec.zero
  else
    let movementDirection :=
      if 0 < desiredVelocity.size then desiredVelocity.normalize else Vec.zero
    let avoidanceVector := repulsionSum enemyPos obstacles config
    if 0 < avoidanceVector.size then
      let av := avoidanceVector.normalize.scale config.avoidanceForce
      if 0 < movementDirection.size then
        let dotProduct := av.dot movementDirection
        let angle := Real.arccos (max (-1) (min 1 dotProduct))
        if config.maxAvoidanceAngle < angle then
          let perpVector : Vec := ⟨-movementDirection.y, movementDirection.x⟩
          let sign : ℝ := if 0 ≤ av.dot perpVector then 1 else -1
          ((movementDirection.scale (Real.cos config.maxAvoidanceAngle)).add
              (perpVector.scale (sign * Real.sin config.maxAvoidanceAngle))).normalize.scale
            config.avoidanceForce
        else av
      else av
    else avoidanceVector

/-- `applyObstacleAvoidance`; `config` is the merged
`{...DEFAULT_CONFIG, ...config}` record the source builds. -/
noncomputable def applyObstacleAvoidance (enemyPos desiredVelocity : Vec)
    (obstacles : List ObstacleB) (config : AvoidanceConfig) : Vec :=
  let detected := detectObstaclesAhead enemyPos desiredVelocity obstacles config
  if detected.length = 0 then desiredVelocity
  else
    let avoidanceVector := calculateAvoidanceVector enemyPos detected desiredVelocity config
    let desiredMagnitude := desiredVelocity.size
    let blendedDirection :=
      (desiredVelocity.normalize.scale (1 - config.avoidanceForce)).add avoidanceVector
    if 0 < blendedDirection.size then
      blendedDirection.normalize.scale desiredMagnitude
    else if 0 < desiredVelocity.size then
      (Vec.mk (-desiredVelocity.y) desiredVelocity.x).normalize.scale
        (desiredMagnitude * config.avoidanceForce)
    else Vec.zero

/-- Angle between two vectors, in `[0, π]`. -/
noncomputable def angleBetween (u v : Vec) : ℝ :=
  Real.arccos (u.dot v / (u.size * v.size))

/-! ## Tactical behavior model (`HideAndShootBehavior.ts`)

`GameConfig` constants of the current `config.ts`:
`obstacle.size = 64`, `enemy.tactical.speed = 200`,
`enemy.tactical.shooting.cooldown = 800`.

The behavior consumes two external services, passed as parameters:
`pathDir` models `Pathfinding.getDirectionToGoal` and the per-tick Boolean
`losClear` models the engine ray-cast in `hasLineOfSight` (spec §6 treats
both as black-box queries at this layer); `rand` is the `Math.random()`
draw of the tick.  `updateShooting` returns whether a projectile was
spawned. -/

def gameObstacleSize : ℝ := 64

def tacticalSpeed : ℝ := 200

def tacticalShootCooldown : ℝ := 800

structure HSState where
  currentObstacle : Option ObstacleB
  currentCooldown : ℝ

structure SceneB where
  player : Option Vec
  obstacles : List ObstacleB

def coverDistance : ℝ := 40

def peekDistance : ℝ := 50

/-- `findBestCover`: nearest obstacle whose footprint is exactly the
standard obstacle size (walls are skipped); `Infinity` as the initial best
distance is modelled by the `none` accumulator. -/
noncomputable def findBestCover (enemyPos : Vec) (obstacles : List ObstacleB) :
    Option ObstacleB :=
  (obstacles.foldl (fun best obstacle =>
    if obstacle.width ≠ gameObstacleSize ∨ obstacle.height ≠ gameObstacleSize then best
    else
      let dist := enemyPos.distance obstacle.pos
      match best with
      | none => some (obstacle, dist)
      | some (b, bd) => if dist < bd then some (obstacle, dist) else some (b, bd))
    none).map Prod.fst

/-- `calculateCoverPosition`. -/
noncomputable def calculateCoverPosition (obstacle : ObstacleB) (playerPos : Vec) : Vec :=
  let toObstacle := (obstacle.pos.sub playerPos).normalize
  let dist := obstacle.width / 2 + coverDistance
  obstacle.pos.add (toObstacle.scale dist)

/-- `calculatePeekPosition`. -/
noncomputable def calculatePeekPosition (obstacle : ObstacleB) (playerPos : Vec) : Vec :=
  let toObstacle := (obstacle.pos.sub playerPos).normalize
  let perp : Vec := ⟨-toObstacle.y, toObstacle.x⟩
  let dist := obstacle.width / 2 + peekDistance
  let coverSpot := calculateCoverPosition obstacle playerPos
  coverSpot.add (perp.scale dist)

/-- `isExposed`: the source's stub, which always returns `false`. -/
def isExposed (_enemyPos _playerPos : Vec) (_obstacle : ObstacleB) : Bool := false

/-- Step 3 of `updateMovement`: peek position when the cooldown is ready,
cover position otherwise. -/
noncomputable def chooseTarget (cooldown : ℝ) (obstacle : ObstacleB) (playerPos : Vec) : Vec :=
  if cooldown ≤ 0 then calculatePeekPosition obstacle playerPos
  else calculateCoverPosition obstacle playerPos

/-- `moveTo` (the avoidance call uses the merged config
`{lookAheadDistance: 50, avoidanceRadius: 35, avoidanceForce: 0.5}` over the
default max angle `π/3`). -/
noncomputable def moveTo (pathDir : Vec → Vec → Vec) (enemyPos target : Vec)
    (obstacles : List ObstacleB) : Vec :=
  let dist := enemyPos.distance target
  if dist < 5 then Vec.zero
  else
    let desiredVelocity :=
      if 100 < dist then
        let direction := pathDir enemyPos target
        if 0 < direction.size then direction.scale tacticalSpeed
        else ((target.sub enemyPos).normalize).scale tacticalSpeed
      else ((target.sub enemyPos).normalize).scale tacticalSpeed
    applyObstacleAvoidance enemyPos desiredVelocity obstacles ⟨50, 35, 0.5, Real.pi / 3⟩

/-- `updateMovement`; returns the updated behavior state and the velocity
written onto the agent. -/
noncomputable def updateMovement (pathDir : Vec → Vec → Vec) (st : HSState)
    (scene : SceneB) (enemyPos : Vec) (delta : ℝ) : HSState × Vec :=
  match scene.player with
  | none => (st, Vec.zero)
  | some playerPos =>
      -- 1. manage cooldowns
      let cooldown' :=
        if 0 < st.currentCooldown then st.currentCooldown - delta else st.currentCooldown
      -- 2. select/update obstacle: `!currentObstacle || isExposed(...)`
      let needCheck : Bool :=
        match st.currentObstacle with
        | none => true
        | some o => isExposed enemyPos playerPos o
      let obstacle' :=
        if needCheck then
          -- `distToCurrent` is `Infinity` with no current obstacle, so
          -- `!currentObstacle || distToCurrent > 200` re-selects in that case
          match st.currentObstacle with
          | none => findBestCover enemyPos scene.obstacles
          | some o =>
              if 200 < enemyPos.distance o.pos then findBestCover enemyPos scene.obstacles
              else some o
        else st.currentObstacle
      -- 3. determine goal position, 4. move (no target ⇒ zero velocity)
      let vel :=
        match obstacle' with
        | some o => moveTo pathDir enemyPos (chooseTarget cooldown' o playerPos) scene.obstacles
        | none => Vec.zero
      (⟨obstacle', cooldown'⟩, vel)

/-- `updateShooting`; `shootCooldown` is the per-instance base cooldown
(initialized to `GameConfig.enemy.tactical.shooting.cooldown`).  Returns
whether a projectile was spawned. -/
noncomputable def updateShooting (shootCooldown : ℝ) (st : HSState) (scene : SceneB)
    (losClear : Bool) (rand : ℝ) : HSState × Bool :=
  if st.currentCooldown ≤ 0 then
    match scene.player with
    | some _ =>
        if losClear then
          (⟨st.currentObstacle, shootCooldown * (0.8 + rand * 0.4)⟩, true)
        else (st, false)
    | none => (st, false)
  else (st, false)

/-- One simulation tick (`Enemy.onPreUpdate` calls `updateMovement` then
`updateShooting` with the same `delta`). -/
noncomputable def hsTick (pathDir : Vec → Vec → Vec) (shootCooldown : ℝ) (st : HSState)
    (scene : SceneB) (enemyPos : Vec) (delta : ℝ) (losClear : Bool) (rand : ℝ) :
    HSState × Vec × Bool :=
  let m := updateMovement pathDir st scene enemyPos delta
  let s := updateShooting shootCooldown m.1 scene losClear rand
  (s.1, m.2, s.2)

/-- External inputs of one tick. -/
structure TickIn where
  delta : ℝ
  scene : SceneB
  enemyPos : Vec
  losClear : Bool
  rand : ℝ

noncomputable def hsRun (pathDir : Vec → Vec → Vec) (shootCooldown : ℝ) (st : HSState) :
    List TickIn → HSState
  | [] => st
  | i :: rest =>
      hsRun pathDir shootCooldown
        (hsTick pathDir shootCooldown st i.scene i.enemyPos i.delta i.losClear i.rand).1 rest

def sumDeltas (ins : List TickIn) : ℝ := (ins.map TickIn.delta).sum

/-! ### Vector lemmas -/

theorem Vec.size_nonneg (v : Vec) : 0 ≤ v.size := Real.sqrt_nonneg _

theorem Vec.size_eq_zero_iff (v : Vec) : v.size = 0 ↔ v = ⟨0, 0⟩ := by
  unfold Vec.size
  rw [show Real.sqrt (v.x ^ 2 + v.y ^ 2) = 0 ↔ v.x ^ 2 + v.y ^ 2 ≤ 0 from Real.sqrt_eq_zero']
  constructor
  · intro h
    have hx : v.x = 0 := by nlinarith [sq_nonneg v.x, sq_nonneg v.y]
    have hy : v.y = 0 := by nlinarith [sq_nonneg v.x, sq_nonneg v.y]
    cases v
    simp_all
  · rintro rfl
    norm_num

theorem Vec.size_pos_iff (v : Vec) : 0 < v.size ↔ v ≠ ⟨0, 0⟩ := by
  constructor
  · intro h heq
    have h0 : v.size = 0 := (Vec.size_eq_zero_iff v).mpr heq
    linarith
  · intro h
    rcases lt_or_eq_of_le (Vec.size_nonneg v) with h' | h'
    · exact h'
    · exact absurd ((Vec.size_eq_zero_iff v).mp h'.symm) h

theorem Vec.size_sq (v : Vec) : v.size ^ 2 = v.x ^ 2 + v.y ^ 2 := by
  unfold Vec.size
  rw [Real.sq_sqrt (by positivity)]

theorem Vec.dot_self (v : Vec) : v.dot v = v.size ^ 2 := by
  rw [Vec.size_sq]
  unfold Vec.dot
  ring

theorem Vec.size_scale (v : Vec) (c : ℝ) : (v.scale c).size = |c| * v.size := by
  unfold Vec.size Vec.scale
  rw [show (v.x * c) ^ 2 + (v.y * c) ^ 2 = c ^ 2 * (v.x ^ 2 + v.y ^ 2) by ring,
    Real.sqrt_mul (by positivity), Real.sqrt_sq_eq_abs]

theorem Vec.normalize_eq_scale {v : Vec} (h : 0 < v.size) :
    v.normalize = v.scale v.size⁻¹ := by
  unfold Vec.normalize Vec.scale
  rw [if_pos h]
  simp [div_eq_mul_inv]

theorem Vec.normalize_size {v : Vec} (h : 0 < v.size) : v.normalize.size = 1 := by
  rw [Vec.normalize_eq_scale h, Vec.size_scale, abs_of_pos (inv_pos.mpr h)]
  exact inv_mul_cancel₀ (ne_of_gt h)

theorem Vec.normalize_scale_size {v : Vec} (h : 0 < v.size) :
    v.normalize.scale v.size = v := by
  have hne : v.size ≠ 0 := ne_of_gt h
  rw [Vec.normalize_eq_scale h]
  unfold Vec.scale
  refine Vec.ext ?_ ?_
  · show v.x * v.size⁻¹ * v.size = v.x
    field_simp
  · show v.y * v.size⁻¹ * v.size = v.y
    field_simp

theorem Vec.dot_comm (u v : Vec) : u.dot v = v.dot u := by
  unfold Vec.dot
  ring

theorem Vec.dot_scale_left (u v : Vec) (c : ℝ) : (u.scale c).dot v = c * u.dot v := by
  unfold Vec.dot Vec.scale
  ring

theorem Vec.dot_add_left (u w v : Vec) : (u.add w).dot v = u.dot v + w.dot v := by
  unfold Vec.dot Vec.add
  ring

theorem Vec.abs_dot_le (u v : Vec) : |u.dot v| ≤ u.size * v.size := by
  have h2 : (u.dot v) ^ 2 ≤ (u.size * v.size) ^ 2 := by
    rw [mul_pow, Vec.size_sq, Vec.size_sq]
    unfold Vec.dot
    nlinarith [sq_nonneg (u.x * v.y - u.y * v.x)]
  calc |u.dot v| = Real.sqrt ((u.dot v) ^ 2) := (Real.sqrt_sq_eq_abs _).symm
    _ ≤ Real.sqrt ((u.size * v.size) ^ 2) := Real.sqrt_le_sqrt h2
    _ = |u.size * v.size| := Real.sqrt_sq_eq_abs _
    _ = u.size * v.size := abs_of_nonneg (mul_nonneg (Vec.size_nonneg u) (Vec.size_nonneg v))

theorem Vec.dot_le_size_mul (u v : Vec) : u.dot v ≤ u.size * v.size :=
  le_trans (le_abs_self _) (Vec.abs_dot_le u v)

theorem Vec.size_add_le (u v : Vec) : (u.add v).size ≤ u.size + v.size := by
  have hsq : ((u.add v).size) ^ 2 ≤ (u.size + v.size) ^ 2 := by
    rw [Vec.size_sq]
    unfold Vec.add
    have hd := Vec.dot_le_size_mul u v
    have hu := Vec.size_sq u
    have hv := Vec.size_sq v
    unfold Vec.dot at hd
    simp only []
    nlinarith [hd, hu, hv]
  calc (u.add v).size = Real.sqrt (((u.add v).size) ^ 2) :=
        (Real.sqrt_sq (Vec.size_nonneg _)).symm
    _ ≤ Real.sqrt ((u.size + v.size) ^ 2) := Real.sqrt_le_sqrt hsq
    _ = u.size + v.size :=
        Real.sqrt_sq (add_nonneg (Vec.size_nonneg u) (Vec.size_nonneg v))

/-- `arccos` is (globally) antitone. -/
theorem arccos_antitone {s t : ℝ} (h : s ≤ t) : Real.arccos t ≤ Real.arccos s := by
  rw [Real.arccos_eq_pi_div_two_sub_arcsin, Real.arccos_eq_pi_div_two_sub_arcsin]
  have := Real.monotone_arcsin h
  linarith

/-!
## Claim theorems
-/

/-- C10: with no `Player` actor in the scene, `updateMovement` zeroes the
velocity and does nothing else (the behavior state — selected cover and
cooldown — is unchanged, and the result does not depend on the pathfinding
service, the obstacle list, or the tick delta), and `updateShooting` spawns
no projectile and leaves the state unchanged. -/
theorem C10_noPlayer_idle (pathDir : Vec → Vec → Vec) (shootCooldown : ℝ)
    (st : HSState) (scene : SceneB) (enemyPos : Vec) (delta : ℝ)
    (losClear : Bool) (rand : ℝ) (hp : scene.player = none) :
    updateMovement pathDir st scene enemyPos delta = (st, Vec.zero) ∧
    (updateShooting shootCooldown st scene losClear rand).2 = false ∧
    (updateShooting shootCooldown st scene losClear rand).1 = st ∧
    hsTick pathDir shootCooldown st scene enemyPos delta losClear rand =
      (st, Vec.zero, false) := by
  unfold hsTick updateMovement updateShooting
  rw [hp]
  by_cases h : st.currentCooldown ≤ 0 <;> simp [h, hp]

/-- Closed instance for `C10_noPlayer_idle`. -/
theorem C10_noPlayer_idle_witness :
    (SceneB.mk none []).player = none ∧
    updateMovement (fun _ _ => Vec.zero) (HSState.mk none 100) (SceneB.mk none [])
        (Vec.mk 5 5) 16 = (HSState.mk none 100, Vec.zero) ∧
    (updateShooting 800 (HSState.mk none 100) (SceneB.mk none []) true 0).2 = false :=
  ⟨rfl,
    (C10_noPlayer_idle (fun _ _ => Vec.zero) 800 (HSState.mk none 100)
      (SceneB.mk none []) (Vec.mk 5 5) 16 true 0 rfl).1,
    (C10_noPlayer_idle (fun _ _ => Vec.zero) 800 (HSState.mk none 100)
      (SceneB.mk none []) (Vec.mk 5 5) 16 true 0 rfl).2.1⟩

/-- Spec-side formulation: the unit vector from `threat` toward `target`
written with an explicit division by the norm. -/
noncomputable def specUnit (threat target : Vec) : Vec :=
  (target.sub threat).scale ((target.sub threat).size)⁻¹

/-- The perpendicular the spec refers to (`(-v.y, v.x)`). -/
def Vec.perp (v : Vec) : Vec := ⟨-v.y, v.x⟩

/-- C9: the cover position is the obstacle center displaced, along the unit
vector from the threat to the obstacle, by half the obstacle width plus the
cover distance; the peek position is the cover position displaced, along
the perpendicular of that unit vector, by half the obstacle width plus the
peek distance; and the behavior targets the cover position exactly when the
cooldown is positive, the peek position exactly when it is `≤ 0` (the two
targets being distinct). -/
theorem C9_cover_peek_selection (o : ObstacleB) (playerPos : Vec) (c : ℝ)
    (hne : o.pos ≠ playerPos) (hw : 0 ≤ o.width) :
    (calculateCoverPosition o playerPos =
      o.pos.add ((specUnit playerPos o.pos).scale (o.width / 2 + coverDistance))) ∧
    (calculatePeekPosition o playerPos =
      (calculateCoverPosition o playerPos).add
        ((specUnit playerPos o.pos).perp.scale (o.width / 2 + peekDistance))) ∧
    (0 < c → chooseTarget c o playerPos = calculateCoverPosition o playerPos) ∧
    (c ≤ 0 → chooseTarget c o playerPos = calculatePeekPosition o playerPos) ∧
    calculatePeekPosition o playerPos ≠ calculateCoverPosition o playerPos := by
  have hsub : o.pos.sub playerPos ≠ (⟨0, 0⟩ : Vec) := by
    intro h
    apply hne
    have hx : o.pos.x - playerPos.x = 0 := by
      simpa [Vec.sub] using congrArg Vec.x h
    have hy : o.pos.y - playerPos.y = 0 := by
      simpa [Vec.sub] using congrArg Vec.y h
    refine Vec.ext ?_ ?_ <;> linarith
  have hpos : 0 < (o.pos.sub playerPos).size := (Vec.size_pos_iff _).mpr hsub
  have hd2 : 0 < o.width / 2 + peekDistance := by
    unfold peekDistance
    linarith
  refine ⟨?_, ?_, ?_, ?_, ?_⟩
  · unfold calculateCoverPosition specUnit
    rw [Vec.normalize_eq_scale hpos]
  · unfold calculatePeekPosition specUnit Vec.perp
    rw [Vec.normalize_eq_scale hpos]
  · intro hc
    unfold chooseTarget
    rw [if_neg (by linarith)]
  · intro hc
    unfold chooseTarget
    rw [if_pos hc]
  · intro heq
    have hu : (o.pos.sub playerPos).normalize.size = 1 := Vec.normalize_size hpos
    set u := (o.pos.sub playerPos).normalize with hudef
    have hx := congrArg Vec.x heq
    have hy := congrArg Vec.y heq
    simp only [calculatePeekPosition, Vec.add, Vec.scale, ← hudef] at hx hy
    have hux : u.x = 0 := by
      have : u.x * (o.width / 2 + peekDistance) = 0 := by linarith
      rcases mul_eq_zero.mp this with h | h
      · exact h
      · linarith
    have huy : u.y = 0 := by
      have : -u.y * (o.width / 2 + peekDistance) = 0 := by linarith
      rcases mul_eq_zero.mp this with h | h
      · linarith
      · linarith
    have : u.size = 0 := by
      rw [(Vec.size_eq_zero_iff u).mpr (Vec.ext hux huy)]
    linarith

/-- Evaluate `Real.sqrt` at a perfect square. -/
theorem sqrt_eval {a b : ℝ} (h : a = b ^ 2) (hb : 0 ≤ b) : Real.sqrt a = b := by
  rw [h, Real.sqrt_sq hb]

/-- C6 (evaluation at the failing input): with an obstacle already selected
at distance 500 px (beyond the 200 px drift bound), `updateMovement` keeps
it, even though another valid cover obstacle is much nearer and
`findBestCover` would select that one.  The stubbed `isExposed` makes the
outer guard false whenever an obstacle is selected, so the inner
`distToCurrent > 200` check is unreachable. -/
theorem C6_drift_never_reselects :
    200 < Vec.distance (Vec.mk 0 0) (ObstacleB.mk (Vec.mk 300 400) 64 64).pos ∧
    findBestCover (Vec.mk 0 0)
        [ObstacleB.mk (Vec.mk 300 400) 64 64, ObstacleB.mk (Vec.mk 30 40) 64 64] =
      some (ObstacleB.mk (Vec.mk 30 40) 64 64) ∧
    ObstacleB.mk (Vec.mk 30 40) 64 64 ≠ ObstacleB.mk (Vec.mk 300 400) 64 64 ∧
    (updateMovement (fun _ _ => Vec.zero)
        (HSState.mk (some (ObstacleB.mk (Vec.mk 300 400) 64 64)) 100)
        (SceneB.mk (some (Vec.mk 1000 1000))
          [ObstacleB.mk (Vec.mk 300 400) 64 64, ObstacleB.mk (Vec.mk 30 40) 64 64])
        (Vec.mk 0 0) 16).1.currentObstacle =
      some (ObstacleB.mk (Vec.mk 300 400) 64 64) := by
  have h500 : Vec.distance (Vec.mk 0 0) (Vec.mk 300 400) = 500 := by
    unfold Vec.distance Vec.sub Vec.size
    simp only []
    rw [sqrt_eval (by norm_num) (by norm_num : (0:ℝ) ≤ 500)]
  have h50 : Vec.distance (Vec.mk 0 0) (Vec.mk 30 40) = 50 := by
    unfold Vec.distance Vec.sub Vec.size
    simp only []
    rw [sqrt_eval (by norm_num) (by norm_num : (0:ℝ) ≤ 50)]
  refine ⟨?_, ?_, ?_, ?_⟩
  · show (200 : ℝ) < Vec.distance (Vec.mk 0 0) (Vec.mk 300 400)
    rw [h500]
    norm_num
  · unfold findBestCover gameObstacleSize
    simp only [List.foldl_cons, List.foldl_nil, h500, h50]
    norm_num
  · intro h
    have := congrArg (fun o => o.pos.x) h
    norm_num at this
  · simp [updateMovement, isExposed]

/-- Closed instance for `C9_cover_peek_selection`. -/
theorem C9_cover_peek_selection_witness :
    (ObstacleB.mk (Vec.mk 3 4) 64 64).pos ≠ Vec.mk 0 0 ∧
    (0 : ℝ) ≤ (ObstacleB.mk (Vec.mk 3 4) 64 64).width ∧
    (0 < (100 : ℝ) →
      chooseTarget 100 (ObstacleB.mk (Vec.mk 3 4) 64 64) (Vec.mk 0 0) =
        calculateCoverPosition (ObstacleB.mk (Vec.mk 3 4) 64 64) (Vec.mk 0 0)) ∧
    calculatePeekPosition (ObstacleB.mk (Vec.mk 3 4) 64 64) (Vec.mk 0 0) ≠
      calculateCoverPosition (ObstacleB.mk (Vec.mk 3 4) 64 64) (Vec.mk 0 0) := by
  have h1 : (ObstacleB.mk (Vec.mk 3 4) 64 64).pos ≠ Vec.mk 0 0 := by
    intro h
    have := congrArg Vec.x h
    norm_num at this
  have h2 : (0 : ℝ) ≤ (ObstacleB.mk (Vec.mk 3 4) 64 64).width := by norm_num
  have hmain := C9_cover_peek_selection (ObstacleB.mk (Vec.mk 3 4) 64 64) (Vec.mk 0 0)
    100 h1 h2
  exact ⟨h1, h2, hmain.2.2.1, hmain.2.2.2.2⟩

/-! ### Cooldown evolution (claim C7) -/

theorem updateMovement_cooldown (pathDir : Vec → Vec → Vec) (st : HSState)
    (scene : SceneB) (enemyPos : Vec) (delta : ℝ) :
    (updateMovement pathDir st scene enemyPos delta).1.currentCooldown =
      if scene.player.isSome ∧ 0 < st.currentCooldown then st.currentCooldown - delta
      else st.currentCooldown := by
  unfold updateMovement
  cases hp : scene.player with
  | none => simp
  | some p =>
      by_cases hc : 0 < st.currentCooldown <;> simp [hc]

theorem updateMovement_cooldown_lb (pathDir : Vec → Vec → Vec) (st : HSState)
    (scene : SceneB) (enemyPos : Vec) (delta : ℝ) (hd : 0 ≤ delta) :
    st.currentCooldown - delta ≤
      (updateMovement pathDir st scene enemyPos delta).1.currentCooldown := by
  rw [updateMovement_cooldown]
  by_cases h : scene.player.isSome ∧ 0 < st.currentCooldown
  · simp [h]
  · simp [h]
    linarith

theorem tick_fired_iff (pathDir : Vec → Vec → Vec) (B : ℝ) (st : HSState)
    (scene : SceneB) (enemyPos : Vec) (delta : ℝ) (losClear : Bool) (rand : ℝ) :
    (hsTick pathDir B st scene enemyPos delta losClear rand).2.2 = true ↔
      ((updateMovement pathDir st scene enemyPos delta).1.currentCooldown ≤ 0 ∧
        scene.player.isSome = true ∧ losClear = true) := by
  unfold hsTick updateShooting
  cases hp : scene.player <;>
    by_cases hc :
        (updateMovement pathDir st scene enemyPos delta).1.currentCooldown ≤ 0 <;>
      cases losClear <;> simp [hp, hc]

/-- Either the tick does not fire and passes the post-movement state
through, or it fires and the cooldown is reset. -/
theorem tick_cases (pathDir : Vec → Vec → Vec) (B : ℝ) (st : HSState)
    (scene : SceneB) (enemyPos : Vec) (delta : ℝ) (losClear : Bool) (rand : ℝ) :
    (hsTick pathDir B st scene enemyPos delta losClear rand =
      ((updateMovement pathDir st scene enemyPos delta).1,
        (updateMovement pathDir st scene enemyPos delta).2, false)) ∨
    ((hsTick pathDir B st scene enemyPos delta losClear rand).2.2 = true ∧
      (hsTick pathDir B st scene enemyPos delta losClear rand).1.currentCooldown =
        B * (0.8 + rand * 0.4)) := by
  unfold hsTick updateShooting
  by_cases hc : (updateMovement pathDir st scene enemyPos delta).1.currentCooldown ≤ 0
  · cases hp : scene.player with
    | none => left; simp [hc]
    | some p =>
        cases hlos : losClear with
        | false => left; simp [hc]
        | true => right; simp [hc]
  · left
    simp [hc]

theorem tick_fired_cooldown (pathDir : Vec → Vec → Vec) (B : ℝ) (st : HSState)
    (scene : SceneB) (enemyPos : Vec) (delta : ℝ) (losClear : Bool) (rand : ℝ)
    (hf : (hsTick pathDir B st scene enemyPos delta losClear rand).2.2 = true) :
    (hsTick pathDir B st scene enemyPos delta losClear rand).1.currentCooldown =
      B * (0.8 + rand * 0.4) := by
  rcases tick_cases pathDir B st scene enemyPos delta losClear rand with h | h
  · rw [h] at hf
    simp at hf
  · exact h.2

theorem tick_cooldown_min_lb (pathDir : Vec → Vec → Vec) (B : ℝ) (hB : 0 ≤ B)
    (st : HSState) (scene : SceneB) (enemyPos : Vec) (delta : ℝ) (losClear : Bool)
    (rand : ℝ) (hd : 0 ≤ delta) (hr : 0 ≤ rand) :
    min st.currentCooldown (0.8 * B) - delta ≤
      min (hsTick pathDir B st scene enemyPos delta losClear rand).1.currentCooldown
        (0.8 * B) := by
  have hm := updateMovement_cooldown_lb pathDir st scene enemyPos delta hd
  set c1 := (updateMovement pathDir st scene enemyPos delta).1.currentCooldown with hc1
  have key : ∀ c2 : ℝ, st.currentCooldown - delta ≤ c2 ∨ 0.8 * B ≤ c2 →
      min st.currentCooldown (0.8 * B) - delta ≤ min c2 (0.8 * B) := by
    intro c2 hcase
    rcases hcase with h | h
    · rcases le_total c2 (0.8 * B) with h2 | h2
      · rw [min_eq_left h2]
        have := min_le_left st.currentCooldown (0.8 * B)
        linarith
      · rw [min_eq_right h2]
        have := min_le_right st.currentCooldown (0.8 * B)
        linarith
    · rcases le_total c2 (0.8 * B) with h2 | h2
      · rw [min_eq_left h2]
        have := min_le_right st.currentCooldown (0.8 * B)
        linarith
      · rw [min_eq_right h2]
        have := min_le_right st.currentCooldown (0.8 * B)
        linarith
  rcases tick_cases pathDir B st scene enemyPos delta losClear rand with h | h
  · refine key _ (Or.inl ?_)
    rw [h]
    exact hm
  · refine key _ (Or.inr ?_)
    rw [h.2]
    nlinarith [mul_nonneg hB hr]

theorem sumDeltas_cons (i : TickIn) (rest : List TickIn) :
    sumDeltas (i :: rest) = i.delta + sumDeltas rest := by
  unfold sumDeltas
  simp

theorem hsRun_cooldown_lb (pathDir : Vec → Vec → Vec) (B : ℝ) (hB : 0 ≤ B) :
    ∀ (ins : List TickIn) (st : HSState),
      (∀ i ∈ ins, 0 ≤ i.delta ∧ 0 ≤ i.rand) →
      min st.currentCooldown (0.8 * B) - sumDeltas ins ≤
        min (hsRun pathDir B st ins).currentCooldown (0.8 * B) := by
  intro ins
  induction ins with
  | nil =>
      intro st _
      unfold hsRun sumDeltas
      simp
  | cons i rest ih =>
      intro st hv
      have h1 := tick_cooldown_min_lb pathDir B hB st i.scene i.enemyPos i.delta
        i.losClear i.rand (hv i (List.mem_cons_self i rest)).1
        (hv i (List.mem_cons_self i rest)).2
      have h2 := ih (hsTick pathDir B st i.scene i.enemyPos i.delta i.losClear i.rand).1
        (fun j hj => hv j (List.mem_cons_of_mem i hj))
      rw [sumDeltas_cons]
      unfold hsRun
      linarith

/-- C7: in the tactical behavior, (a) a tick issues a shot only when the
cooldown counter (after the tick's decrement) is `≤ 0` and the
line-of-sight query reports clear at that moment (and a player exists);
(b) on a shot the cooldown resets to the base value times `0.8 + 0.4·rand`,
which lies in `[0.8·B, 1.2·B]` for `rand ∈ [0, 1)`; and (c) from any state
whose cooldown is at least `0.8·B` — in particular any post-shot state, by
(b) — the next shot can only occur after at least `0.8·B` of accumulated
tick time, so two consecutive shots are never closer than `0.8·B`. -/
theorem C7_shot_gating_and_cooldown (pathDir : Vec → Vec → Vec) (B : ℝ) (hB : 0 ≤ B)
    (st : HSState) (scene : SceneB) (enemyPos : Vec) (delta : ℝ)
    (losClear : Bool) (rand : ℝ) (hr0 : 0 ≤ rand) (hr1 : rand < 1) :
    ((hsTick pathDir B st scene enemyPos delta losClear rand).2.2 = true →
      (updateMovement pathDir st scene enemyPos delta).1.currentCooldown ≤ 0 ∧
        scene.player.isSome = true ∧ losClear = true) ∧
    ((hsTick pathDir B st scene enemyPos delta losClear rand).2.2 = true →
      (hsTick pathDir B st scene enemyPos delta losClear rand).1.currentCooldown =
          B * (0.8 + rand * 0.4) ∧
        0.8 * B ≤
          (hsTick pathDir B st scene enemyPos delta losClear rand).1.currentCooldown ∧
        (hsTick pathDir B st scene enemyPos delta losClear rand).1.currentCooldown ≤
          1.2 * B) ∧
    (0.8 * B ≤ st.currentCooldown →
      ∀ (pre : List TickIn) (i : TickIn),
        (∀ j ∈ pre, 0 ≤ j.delta ∧ 0 ≤ j.rand) → 0 ≤ i.delta →
        (hsTick pathDir B (hsRun pathDir B st pre) i.scene i.enemyPos i.delta
            i.losClear i.rand).2.2 = true →
        0.8 * B ≤ sumDeltas pre + i.delta) := by
  refine ⟨?_, ?_, ?_⟩
  · intro hf
    exact (tick_fired_iff pathDir B st scene enemyPos delta losClear rand).mp hf
  · intro hf
    have he := tick_fired_cooldown pathDir B st scene enemyPos delta losClear rand hf
    refine ⟨he, ?_, ?_⟩
    · rw [he]
      nlinarith [mul_nonneg hB hr0]
    · rw [he]
      nlinarith
  · intro hc0 pre i hpre hdi hf
    have hrun := hsRun_cooldown_lb pathDir B hB pre st hpre
    have hmin : min st.currentCooldown (0.8 * B) = 0.8 * B := min_eq_right hc0
    rw [hmin] at hrun
    set s0 := hsRun pathDir B st pre with hs0
    have hmov := updateMovement_cooldown_lb pathDir s0 i.scene i.enemyPos i.delta hdi
    have hgate :=
      ((tick_fired_iff pathDir B s0 i.scene i.enemyPos i.delta i.losClear i.rand).mp hf).1
    have hle : min s0.currentCooldown (0.8 * B) ≤ s0.currentCooldown :=
      min_le_left _ _
    linarith

/-- Closed instance for `C7_shot_gating_and_cooldown`: base cooldown 800,
a post-shot state at the lower bound 640, and a single tick of 640 ms with
clear line of sight, which fires; the accumulated time 640 = 0.8·800. -/
theorem C7_shot_gating_and_cooldown_witness :
    (0 : ℝ) ≤ 800 ∧ (0 : ℝ) ≤ 0 ∧ (0 : ℝ) < 1 ∧
    (0.8 * (800 : ℝ) ≤ (HSState.mk none 640).currentCooldown →
      ∀ (pre : List TickIn) (i : TickIn),
        (∀ j ∈ pre, 0 ≤ j.delta ∧ 0 ≤ j.rand) → 0 ≤ i.delta →
        (hsTick (fun _ _ => Vec.zero) 800 (hsRun (fun _ _ => Vec.zero) 800
            (HSState.mk none 640) pre) i.scene i.enemyPos i.delta
            i.losClear i.rand).2.2 = true →
        0.8 * 800 ≤ sumDeltas pre + i.delta) :=
  ⟨by norm_num, le_refl 0, by norm_num,
    (C7_shot_gating_and_cooldown (fun _ _ => Vec.zero) 800 (by norm_num)
      (HSState.mk none 640) (SceneB.mk (some (Vec.mk 0 0)) []) (Vec.mk 5 5) 640 true 0
      (le_refl 0) (by norm_num)).2.2⟩

/-! ### Cache behavior at failing searches (claims C2, C3)

`wallGrid` is a generated 3×1 grid whose middle cell is unwalkable (as
`buildGrid` produces for a 48×16 world with one obstacle covering the
middle cell), so a search from the left cell to the right cell exhausts A*
without reaching the goal. -/

def wallGrid : List (List Bool) := [[true, false, true]]

def world48 : WorldConfig := ⟨48, 16⟩

/-- A cache already holding 50 entries (as after 50 distinct earlier
queries); the keys are distinct from the failing query's key below. -/
def cacheFull : List (CacheKey × CachedPath) :=
  (List.range 50).map (fun i => ((((i : ℤ), 100), ((i : ℤ), 100)), ⟨(0, 0), (0, 0), [], 0⟩))

/-- C2 (evaluation at the failing input): a cache at its 50-entry capacity,
plus one `findPath` call whose search fails, leaves 51 entries — the
no-path branch stores its (empty) result without the size check, so the
bound "at most 50 after every call" is violated. -/
theorem C2_cache_exceeds_capacity :
    (PFState.mk (some wallGrid) 3 1 1000 cacheFull).pathCache.length = 50 ∧
    (findPath world48 defaultPFConfig [] 1000 (0, 0) (40, 0)
        (PFState.mk (some wallGrid) 3 1 1000 cacheFull)).1 = [] ∧
    (findPath world48 defaultPFConfig [] 1000 (0, 0) (40, 0)
        (PFState.mk (some wallGrid) 3 1 1000 cacheFull)).2.pathCache.length = 51 := by
  refine ⟨by decide, by decide, by decide⟩

/-- C3 (evaluation at the failing input): a failed search returns an empty
path (no exception) and caches the empty result, but a second call 100 ms
later with the same start and goal does *not* return the cached empty
result without searching: the cache-hit branch only returns paths of
positive length, so A* re-runs and re-caches — observable in the refreshed
timestamp (1100 instead of the cached 1000). -/
theorem C3_cached_empty_not_returned :
    (findPath world48 defaultPFConfig [] 1000 (0, 0) (40, 0)
        (PFState.mk (some wallGrid) 3 1 900 [])).1 = [] ∧
    (findPath world48 defaultPFConfig [] 1000 (0, 0) (40, 0)
        (PFState.mk (some wallGrid) 3 1 900 [])).2.pathCache =
      [(((0, 0), (2, 0)), ⟨(0, 0), (40, 0), [], 1000⟩)] ∧
    (findPath world48 defaultPFConfig [] 1100 (0, 0) (40, 0)
        (findPath world48 defaultPFConfig [] 1000 (0, 0) (40, 0)
          (PFState.mk (some wallGrid) 3 1 900 [])).2).1 = [] ∧
    (findPath world48 defaultPFConfig [] 1100 (0, 0) (40, 0)
        (findPath world48 defaultPFConfig [] 1000 (0, 0) (40, 0)
          (PFState.mk (some wallGrid) 3 1 900 [])).2).2.pathCache =
      [(((0, 0), (2, 0)), ⟨(0, 0), (40, 0), [], 1100⟩)] := by
  refine ⟨by decide, by decide, by decide, by decide⟩

/-! ### Grid marking (claim C4) -/

def world320 : WorldConfig := ⟨320, 320⟩

/-- C4 (counterexample): with the default 16 px cells and 8 px padding, an
obstacle with bounds `[10,12] × [10,12]` (padded rectangle `[2,20]²`) marks
cell `(1,1)` unwalkable although that cell's center `(24,24)` lies outside
the padded rectangle — so "exactly the cells whose centers fall within the
expanded rectangle" is false. -/
theorem C4_center_rule_violated :
    cellAt (buildGridData world320 defaultPFConfig
        [Bounds.mk 10 12 10 12]).2.2 1 1 = false ∧
    gridToWorld defaultPFConfig 1 1 = (24, 24) ∧
    ¬((10 - 8 : ℤ) ≤ 24 ∧ (24 : ℤ) ≤ 12 + 8) := by
  refine ⟨by decide, by decide, by decide⟩

theorem inMarkRange_iff_overlap (cfg : PathfindingConfig) (gw gh : ℤ) (b : Bounds)
    (x y : ℤ) (hc : 0 < cfg.cellSize) (hx0 : 0 ≤ x) (hxw : x < gw)
    (hy0 : 0 ≤ y) (hyh : y < gh) :
    inMarkRange cfg gw gh b x y ↔
      (b.left - cfg.obstaclePadding < (x + 1) * cfg.cellSize ∧
        x * cfg.cellSize ≤ b.right + cfg.obstaclePadding ∧
        b.top - cfg.obstaclePadding < (y + 1) * cfg.cellSize ∧
        y * cfg.cellSize ≤ b.bottom + cfg.obstaclePadding) := by
  unfold inMarkRange
  rw [max_le_iff, le_min_iff, max_le_iff, le_min_iff,
    fdiv_le_iff hc, fdiv_le_iff hc, le_fdiv_iff hc, le_fdiv_iff hc]
  constructor
  · rintro ⟨⟨-, h1⟩, ⟨-, h2⟩, ⟨-, h3⟩, ⟨-, h4⟩⟩
    exact ⟨h1, h2, h3, h4⟩
  · rintro ⟨h1, h2, h3, h4⟩
    exact ⟨⟨hx0, h1⟩, ⟨by omega, h2⟩, ⟨hy0, h3⟩, ⟨by omega, h4⟩⟩

/-- C4 (amended): an in-bounds grid cell is marked unwalkable iff its
`cellSize × cellSize` area overlaps some obstacle's rectangle expanded by
the padding (equivalently: its index lies in the clamped floor-quotient
ranges the code computes); in particular rebuilding with an empty obstacle
list leaves every cell walkable. -/
theorem C4_marked_iff_overlap (world : WorldConfig) (cfg : PathfindingConfig)
    (obs : List Bounds) (x y : ℤ) (hc : 0 < cfg.cellSize)
    (hx0 : 0 ≤ x) (hxw : x < (buildGridData world cfg obs).1)
    (hy0 : 0 ≤ y) (hyh : y < (buildGridData world cfg obs).2.1) :
    (cellAt (buildGridData world cfg obs).2.2 x y = false ↔
      ∃ b ∈ obs,
        b.left - cfg.obstaclePadding < (x + 1) * cfg.cellSize ∧
        x * cfg.cellSize ≤ b.right + cfg.obstaclePadding ∧
        b.top - cfg.obstaclePadding < (y + 1) * cfg.cellSize ∧
        y * cfg.cellSize ≤ b.bottom + cfg.obstaclePadding) ∧
    (obs = [] → cellAt (buildGridData world cfg obs).2.2 x y = true) := by
  have hchar := cellAt_buildGridData world cfg obs hx0 hxw hy0 hyh
  constructor
  · rw [hchar]
    by_cases h : ∃ b ∈ obs, inMarkRange cfg (buildGridData world cfg obs).1
        (buildGridData world cfg obs).2.1 b x y
    · rw [if_pos h]
      constructor
      · intro _
        obtain ⟨b, hb, hr⟩ := h
        exact ⟨b, hb,
          (inMarkRange_iff_overlap cfg _ _ b x y hc hx0 hxw hy0 hyh).mp hr⟩
      · intro _
        rfl
    · rw [if_neg h]
      constructor
      · intro hfalse
        simp at hfalse
      · rintro ⟨b, hb, hover⟩
        exact absurd ⟨b, hb,
          (inMarkRange_iff_overlap cfg _ _ b x y hc hx0 hxw hy0 hyh).mpr hover⟩ h
  · intro hobs
    subst hobs
    rw [hchar, if_neg (by rintro ⟨b, hb, -⟩; exact absurd hb (List.not_mem_nil b))]

/-- Closed instance for `C4_marked_iff_overlap`: cell `(1,1)` of the
counterexample grid is unwalkable, and the single obstacle's padded
rectangle indeed overlaps that cell's area. -/
theorem C4_marked_iff_overlap_witness :
    (0 : ℤ) < defaultPFConfig.cellSize ∧
    (0 : ℤ) ≤ 1 ∧
    (1 : ℤ) < (buildGridData world320 defaultPFConfig [Bounds.mk 10 12 10 12]).1 ∧
    (1 : ℤ) < (buildGridData world320 defaultPFConfig [Bounds.mk 10 12 10 12]).2.1 ∧
    (cellAt (buildGridData world320 defaultPFConfig [Bounds.mk 10 12 10 12]).2.2 1 1 =
        false ↔
      ∃ b ∈ [Bounds.mk 10 12 10 12],
        b.left - defaultPFConfig.obstaclePadding < (1 + 1) * defaultPFConfig.cellSize ∧
        1 * defaultPFConfig.cellSize ≤ b.right + defaultPFConfig.obstaclePadding ∧
        b.top - defaultPFConfig.obstaclePadding < (1 + 1) * defaultPFConfig.cellSize ∧
        1 * defaultPFConfig.cellSize ≤ b.bottom + defaultPFConfig.obstaclePadding) :=
  ⟨by decide, by decide, by decide, by decide,
    (C4_marked_iff_overlap world320 defaultPFConfig [Bounds.mk 10 12 10 12] 1 1
      (by decide) (by decide) (by decide) (by decide) (by decide)).1⟩

/-! ### Degenerate queries: start equals goal (claim C8) -/

theorem Vec.normalize_ne_zero {v : Vec} (h : v ≠ ⟨0, 0⟩) : v.normalize ≠ ⟨0, 0⟩ := by
  intro hc
  have h1 : v.normalize.size = 1 := Vec.normalize_size ((Vec.size_pos_iff v).mpr h)
  rw [hc, (Vec.size_eq_zero_iff ⟨0, 0⟩).mpr rfl] at h1
  norm_num at h1

/-- C8 (counterexample): calling with start = goal = `(10,10)` (a walkable
cell) returns the single waypoint `(8,8)` (the cell center), as the claim
says — but `getDirectionToGoal` on the same call returns a *nonzero* unit
vector toward that center, not the zero vector, because the agent is not
exactly at the cell center. -/
theorem C8_direction_not_zero :
    (findPath world320 defaultPFConfig [] 0 (10, 10) (10, 10)
        (PFState.mk none 0 0 (-1000) [])).1 = [(8, 8)] ∧
    (getDirectionToGoal world320 defaultPFConfig [] 0 (10, 10) (10, 10) 1
        (PFState.mk none 0 0 (-1000) [])).1 ≠ Vec.zero := by
  have hfp : findPath world320 defaultPFConfig [] 0 (10, 10) (10, 10)
      (PFState.mk none 0 0 (-1000) []) =
      ([(8, 8)],
        PFState.mk (some (List.replicate 20 (List.replicate 20 true))) 20 20 0
          [(((0, 0), (0, 0)), ⟨(10, 10), (10, 10), [(8, 8)], 0⟩)]) := by decide
  refine ⟨by rw [hfp], ?_⟩
  unfold getDirectionToGoal
  rw [hfp]
  norm_num [sqDist, Int.fdiv]
  apply Vec.normalize_ne_zero
  intro h
  have := congrArg Vec.x h
  norm_num at this

/-- C8 (amended): on a fresh query (live grid, empty cache) with
start = goal in a walkable cell, `findPath` returns exactly one waypoint —
the cell's center — and `getDirectionToGoal` returns the zero vector *iff*
the agent is exactly at that center (otherwise the unit vector toward
it). -/
theorem C8_same_cell_amended (world : WorldConfig) (cfg : PathfindingConfig)
    (obs : List Bounds) (now : ℤ) (p : ℤ × ℤ) (st : PFState)
    (hg : st.grid ≠ none)
    (hfresh : now - st.lastObstacleUpdate ≤ obstacleUpdateInterval)
    (hcache : st.pathCache = [])
    (hwalk : isWalkable st (worldToGrid cfg p).1 (worldToGrid cfg p).2 = true) :
    (findPath world cfg obs now p p st).1 =
      [gridToWorld cfg (worldToGrid cfg p).1 (worldToGrid cfg p).2] ∧
    ((getDirectionToGoal world cfg obs now p p 1 st).1 = Vec.zero ↔
      p = gridToWorld cfg (worldToGrid cfg p).1 (worldToGrid cfg p).2) := by
  obtain ⟨g, hgg⟩ := Option.ne_none_iff_exists'.mp hg
  have hens : ensureGridUpdated world cfg obs now st = st := by
    unfold ensureGridUpdated
    rw [if_neg]
    push_neg
    exact ⟨hg, by linarith⟩
  have hpath : (findPath world cfg obs now p p st).1 =
      [gridToWorld cfg (worldToGrid cfg p).1 (worldToGrid cfg p).2] := by
    unfold findPath
    rw [hens]
    simp only [hgg, hcache, mapGet, hwalk, if_true]
    rw [show (st.gridWidth * st.gridHeight).toNat + 1 =
      Nat.succ ((st.gridWidth * st.gridHeight).toNat) from rfl]
    simp only [astarLoop, findMinIndex, findMinIdxGo, List.getD_cons_zero,
      List.eraseIdx, GridNode.x, GridNode.y, and_self, if_true, reconstructPath]
  refine ⟨hpath, ?_⟩
  set c := gridToWorld cfg (worldToGrid cfg p).1 (worldToGrid cfg p).2 with hc
  unfold getDirectionToGoal
  simp only [hpath, List.length_cons, List.length_nil, List.getD_cons_zero]
  norm_num
  by_cases hd : c.1 - p.1 = 0 ∧ c.2 - p.2 = 0
  · rw [if_pos hd]
    have hpc : p = c := Prod.ext (by omega) (by omega)
    simp [hpc]
  · rw [if_neg hd]
    have hne : (Vec.mk ((c.1 : ℝ) - (p.1 : ℝ)) ((c.2 : ℝ) - (p.2 : ℝ))) ≠ ⟨0, 0⟩ := by
      intro hcon
      apply hd
      have h1 := congrArg Vec.x hcon
      have h2 := congrArg Vec.y hcon
      simp only [] at h1 h2
      constructor
      · have : ((c.1 - p.1 : ℤ) : ℝ) = 0 := by push_cast; linarith
        exact_mod_cast this
      · have : ((c.2 - p.2 : ℤ) : ℝ) = 0 := by push_cast; linarith
        exact_mod_cast this
    constructor
    · intro hzero
      exact absurd hzero (Vec.normalize_ne_zero hne)
    · intro hpc
      exact absurd (by rw [hpc]; constructor <;> ring) hd

/-- Closed instance for `C8_same_cell_amended`: a 3×1 grid, start = goal =
`(0,0)` in the walkable left cell. -/
theorem C8_same_cell_amended_witness :
    (PFState.mk (some wallGrid) 3 1 1000 ([] : List (CacheKey × CachedPath))).grid ≠
        none ∧
    (1000 : ℤ) -
        (PFState.mk (some wallGrid) 3 1 1000
          ([] : List (CacheKey × CachedPath))).lastObstacleUpdate ≤
      obstacleUpdateInterval ∧
    isWalkable (PFState.mk (some wallGrid) 3 1 1000 [])
        (worldToGrid defaultPFConfig (0, 0)).1
        (worldToGrid defaultPFConfig (0, 0)).2 = true ∧
    (findPath world48 defaultPFConfig [] 1000 (0, 0) (0, 0)
        (PFState.mk (some wallGrid) 3 1 1000 [])).1 =
      [gridToWorld defaultPFConfig (worldToGrid defaultPFConfig (0, 0)).1
        (worldToGrid defaultPFConfig (0, 0)).2] :=
  ⟨by decide, by decide, by decide,
    (C8_same_cell_amended world48 defaultPFConfig [] 1000 (0, 0)
      (PFState.mk (some wallGrid) 3 1 1000 []) (by decide) (by decide) rfl
      (by decide)).1⟩

/-! ### The octile heuristic and the cost model (claim C5) -/

theorem sqrt_two_le_two : Real.sqrt 2 ≤ 2 := by
  nlinarith [sqrt_two_sq, Real.sqrt_nonneg 2]

/-- Octile distance over cell deltas, as the spec writes it:
`max(dx,dy) + (√2 − 1)·min(dx,dy)`. -/
noncomputable def octN (a b : ℕ) : ℝ :=
  max (a : ℝ) (b : ℝ) + (Real.sqrt 2 - 1) * min (a : ℝ) (b : ℝ)

theorem heuristic_eq_octN (n g : ℤ × ℤ) :
    (heuristic n g).toReal = octN (n.1 - g.1).natAbs (n.2 - g.2).natAbs :=
  heuristic_toReal n g

theorem octN_comm (a b : ℕ) : octN a b = octN b a := by
  unfold octN
  rw [max_comm, min_comm]

theorem octN_mono {a a' b b' : ℕ} (ha : a ≤ a') (hb : b ≤ b') :
    octN a b ≤ octN a' b' := by
  unfold octN
  have hs := one_lt_sqrt_two
  have har : (a : ℝ) ≤ a' := by exact_mod_cast ha
  have hbr : (b : ℝ) ≤ b' := by exact_mod_cast hb
  have hmax : max (a : ℝ) (b : ℝ) ≤ max (a' : ℝ) (b' : ℝ) := max_le_max har hbr
  have hmin : min (a : ℝ) (b : ℝ) ≤ min (a' : ℝ) (b' : ℝ) := min_le_min har hbr
  nlinarith [hmax, hmin]

theorem octN_succ_left (a b : ℕ) : octN (a + 1) b ≤ 1 + octN a b := by
  unfold octN
  have hs := one_lt_sqrt_two
  have hs2 := sqrt_two_le_two
  push_cast
  rcases le_or_lt (b : ℕ) a with h | h
  · have h1 : (b : ℝ) ≤ (a : ℝ) := by exact_mod_cast h
    rw [max_eq_left (by linarith), min_eq_right (by linarith),
      max_eq_left h1, min_eq_right h1]
    linarith
  · have h1 : (a : ℝ) + 1 ≤ (b : ℝ) := by exact_mod_cast h
    rw [max_eq_right (by linarith), min_eq_left (by linarith),
      max_eq_right (by linarith : (a : ℝ) ≤ (b : ℝ)),
      min_eq_left (by linarith : (a : ℝ) ≤ (b : ℝ))]
    nlinarith

theorem octN_succ_right (a b : ℕ) : octN a (b + 1) ≤ 1 + octN a b := by
  rw [octN_comm a (b + 1), octN_comm a b]
  exact octN_succ_left b a

theorem octN_succ_both (a b : ℕ) : octN (a + 1) (b + 1) ≤ Real.sqrt 2 + octN a b := by
  unfold octN
  push_cast
  rw [max_add_add_right, min_add_add_right]
  nlinarith [one_lt_sqrt_two]

/-- Consistency: one 8-neighbor step never decreases `g + h` under the cost
model (1 orthogonal, √2 diagonal). -/
theorem heuristic_consistent (n m g : ℤ × ℤ)
    (hd : (m.1 - n.1, m.2 - n.2) ∈ directions) :
    (heuristic n g).toReal ≤ (stepCost n m).toReal + (heuristic m g).toReal := by
  rw [heuristic_eq_octN, heuristic_eq_octN]
  simp only [directions, List.mem_cons, List.not_mem_nil, or_false, Prod.mk.injEq] at hd
  unfold stepCost
  rcases hd with ⟨h1, h2⟩ | ⟨h1, h2⟩ | ⟨h1, h2⟩ | ⟨h1, h2⟩ | ⟨h1, h2⟩ | ⟨h1, h2⟩ |
    ⟨h1, h2⟩ | ⟨h1, h2⟩ <;>
    first
    | (rw [if_pos (by omega)]
       have hstep : (Cost.mk 0 1).toReal = Real.sqrt 2 := by
         unfold Cost.toReal
         norm_num
       rw [hstep]
       calc octN (n.1 - g.1).natAbs (n.2 - g.2).natAbs ≤
             octN ((m.1 - g.1).natAbs + 1) ((m.2 - g.2).natAbs + 1) :=
               octN_mono (by omega) (by omega)
         _ ≤ Real.sqrt 2 + octN (m.1 - g.1).natAbs (m.2 - g.2).natAbs :=
               octN_succ_both _ _)
    | (rw [if_neg (by omega)]
       have hstep : (Cost.mk 1 0).toReal = 1 := by
         unfold Cost.toReal
         norm_num
       rw [hstep]
       first
       | (calc octN (n.1 - g.1).natAbs (n.2 - g.2).natAbs ≤
               octN ((m.1 - g.1).natAbs + 1) ((m.2 - g.2).natAbs) :=
                 octN_mono (by omega) (by omega)
           _ ≤ 1 + octN (m.1 - g.1).natAbs (m.2 - g.2).natAbs := octN_succ_left _ _)
       | (calc octN (n.1 - g.1).natAbs (n.2 - g.2).natAbs ≤
               octN ((m.1 - g.1).natAbs) ((m.2 - g.2).natAbs + 1) :=
                 octN_mono (by omega) (by omega)
           _ ≤ 1 + octN (m.1 - g.1).natAbs (m.2 - g.2).natAbs := octN_succ_right _ _))

/-- An 8-connected sequence of cells (each consecutive difference is one of
the eight neighbor directions). -/
def IsStepSeq (l : List (ℤ × ℤ)) : Prop :=
  l.Chain' (fun a b => (b.1 - a.1, b.2 - a.2) ∈ directions)

/-- Total cost of a cell sequence under the A* cost model. -/
noncomputable def seqCostR : List (ℤ × ℤ) → ℝ
  | p :: q :: rest => (stepCost p q).toReal + seqCostR (q :: rest)
  | _ => 0

theorem heuristic_self (p : ℤ × ℤ) : (heuristic p p).toReal = 0 := by
  unfold heuristic Cost.toReal
  simp

/-- Admissibility: the octile heuristic never exceeds the cost of any
8-connected sequence between its endpoints. -/
theorem heuristic_admissible (l : List (ℤ × ℤ)) (h : l ≠ [])
    (hseq : IsStepSeq l) :
    (heuristic (l.head h) (l.getLast h)).toReal ≤ seqCostR l := by
  induction l with
  | nil => exact absurd rfl h
  | cons p rest ih =>
      cases rest with
      | nil =>
          simp only [List.head_cons, List.getLast_singleton, seqCostR]
          rw [heuristic_self]
      | cons q rest' =>
          have hchain := List.chain'_cons.mp hseq
          have hstep := hchain.1
          have hrest := hchain.2
          have ihq := ih (by simp) hrest
          simp only [List.head_cons] at ihq ⊢
          rw [List.getLast_cons (by simp)]
          show (heuristic p ((q :: rest').getLast (by simp))).toReal ≤
            seqCostR (p :: q :: rest')
          have hcons := heuristic_consistent p q ((q :: rest').getLast (by simp)) hstep
          show _ ≤ (stepCost p q).toReal + seqCostR (q :: rest')
          linarith

/-- Straight-line (Euclidean) distance between two integer points. -/
noncomputable def pointDistR (u v : ℤ × ℤ) : ℝ :=
  Real.sqrt (((u.1 - v.1 : ℤ) : ℝ) ^ 2 + ((u.2 - v.2 : ℤ) : ℝ) ^ 2)

/-- Total Euclidean length of a waypoint polyline. -/
noncomputable def polylineLength : List (ℤ × ℤ) → ℝ
  | p :: q :: rest => pointDistR p q + polylineLength (q :: rest)
  | _ => 0

/-- Every consecutive pair of waypoints is one diagonal cell step. -/
def allDiagSteps : List (ℤ × ℤ) → Bool
  | p :: q :: rest => (q.1 - p.1 == 16) && (q.2 - p.2 == 16) && allDiagSteps (q :: rest)
  | _ => true

def freshPF : PFState := ⟨none, 0, 0, -1000, []⟩

/-- The pure-diagonal waypoint sequence from cell `(0,0)` to `(19,19)`. -/
def diagPath20 : List (ℤ × ℤ) :=
  [(8, 8), (24, 24), (40, 40), (56, 56), (72, 72), (88, 88), (104, 104),
   (120, 120), (136, 136), (152, 152), (168, 168), (184, 184), (200, 200),
   (216, 216), (232, 232), (248, 248), (264, 264), (280, 280), (296, 296),
   (312, 312)]

theorem sqrt512 : Real.sqrt 512 = 16 * Real.sqrt 2 := by
  rw [show (512 : ℝ) = 16 ^ 2 * 2 by norm_num, Real.sqrt_mul (by positivity),
    Real.sqrt_sq (by norm_num)]

theorem scenario_path :
    (findPath world320 defaultPFConfig [] 0 (10, 10) (310, 310) freshPF).1 =
      diagPath20 := by decide

theorem scenario_len : polylineLength diagPath20 = 304 * Real.sqrt 2 := by
  simp only [diagPath20, polylineLength, pointDistR]
  norm_num [sqrt512]
  ring

theorem scenario_straight : pointDistR (10, 10) (310, 310) = 300 * Real.sqrt 2 := by
  unfold pointDistR
  rw [show (((10 - 310 : ℤ) : ℝ) ^ 2 + ((10 - 310 : ℤ) : ℝ) ^ 2) = 300 ^ 2 * 2 by
    norm_num, Real.sqrt_mul (by positivity), Real.sqrt_sq (by norm_num)]

/-- C5 (counterexample to the universal path-length clause): for start
`(15,15)` and goal `(16,16)` on the empty grid — adjacent diagonal cells —
the returned path `[(8,8),(24,24)]` has Euclidean length `16√2` while the
straight-line distance is only `√2`: the length exceeds 10× (indeed it is
exactly 16×) the straight-line distance, so no "small constant factor"
bound holds for every start and goal. -/
theorem C5_short_distance_counterexample :
    (findPath world320 defaultPFConfig [] 0 (15, 15) (16, 16) freshPF).1 =
      [(8, 8), (24, 24)] ∧
    polylineLength [(8, 8), (24, 24)] = 16 * Real.sqrt 2 ∧
    pointDistR (15, 15) (16, 16) = Real.sqrt 2 ∧
    10 * pointDistR (15, 15) (16, 16) < polylineLength [(8, 8), (24, 24)] := by
  have hlen : polylineLength [((8 : ℤ), (8 : ℤ)), (24, 24)] = 16 * Real.sqrt 2 := by
    simp only [polylineLength, pointDistR]
    norm_num [sqrt512]
  have hstraight : pointDistR (15, 15) (16, 16) = Real.sqrt 2 := by
    unfold pointDistR
    norm_num
  refine ⟨by decide, hlen, hstraight, ?_⟩
  rw [hlen, hstraight]
  nlinarith [one_lt_sqrt_two, Real.sqrt_nonneg 2]

/-- C5 (amended): the A* cost model is orthogonal 1 / diagonal √2 and the
heuristic is octile distance (`heuristic_eq_octN`), which is consistent and
admissible for this cost model; and on the spec's no-obstacle scenario
(320×320 world, `findPath((10,10),(310,310))`) the returned path is the
pure-diagonal waypoint sequence — not an orthogonal staircase — whose
Euclidean length `304√2` is within factor 1.1 (in fact ≈1.013) of the
straight-line distance `300√2`.  (The "within a small constant factor for
*every* start and goal" clause is dropped: it fails for nearby start/goal
pairs, see the counterexample.) -/
theorem C5_octile_consistent_admissible_diagonal :
    (∀ n g : ℤ × ℤ, (heuristic n g).toReal =
      octN (n.1 - g.1).natAbs (n.2 - g.2).natAbs) ∧
    (∀ n m g : ℤ × ℤ, (m.1 - n.1, m.2 - n.2) ∈ directions →
      (heuristic n g).toReal ≤ (stepCost n m).toReal + (heuristic m g).toReal) ∧
    (∀ (l : List (ℤ × ℤ)) (h : l ≠ []), IsStepSeq l →
      (heuristic (l.head h) (l.getLast h)).toReal ≤ seqCostR l) ∧
    (findPath world320 defaultPFConfig [] 0 (10, 10) (310, 310) freshPF).1 =
      diagPath20 ∧
    allDiagSteps diagPath20 = true ∧
    polylineLength diagPath20 = 304 * Real.sqrt 2 ∧
    polylineLength diagPath20 ≤ 1.1 * pointDistR (10, 10) (310, 310) := by
  refine ⟨heuristic_eq_octN, heuristic_consistent, heuristic_admissible,
    scenario_path, by decide, scenario_len, ?_⟩
  rw [scenario_len, scenario_straight]
  nlinarith [Real.sqrt_nonneg 2]

/-- Closed instance for `C5_octile_consistent_admissible_diagonal`:
consistency at the diagonal step `(0,0) → (1,1)` toward goal `(5,5)` and
admissibility for the two-cell sequence `[(0,0),(1,1)]`. -/
theorem C5_octile_witness :
    (((1 : ℤ) - 0, (1 : ℤ) - 0) ∈ directions) ∧
    IsStepSeq [((0 : ℤ), (0 : ℤ)), (1, 1)] ∧
    (heuristic (0, 0) (5, 5)).toReal ≤
      (stepCost (0, 0) (1, 1)).toReal + (heuristic (1, 1) (5, 5)).toReal ∧
    (heuristic (([((0 : ℤ), (0 : ℤ)), (1, 1)]).head (by simp))
        (([((0 : ℤ), (0 : ℤ)), (1, 1)]).getLast (by simp))).toReal ≤
      seqCostR [((0 : ℤ), (0 : ℤ)), (1, 1)] := by
  have hmem : (((1 : ℤ) - 0, (1 : ℤ) - 0) : ℤ × ℤ) ∈ directions := by decide
  have hseq : IsStepSeq [((0 : ℤ), (0 : ℤ)), (1, 1)] := by
    unfold IsStepSeq
    refine List.chain'_cons.mpr ⟨?_, ?_⟩
    · decide
    · exact List.chain'_singleton _
  exact ⟨hmem, hseq,
    C5_octile_consistent_admissible_diagonal.2.1 (0, 0) (1, 1) (5, 5) hmem,
    C5_octile_consistent_admissible_diagonal.2.2.1 [((0 : ℤ), (0 : ℤ)), (1, 1)]
      (by simp) hseq⟩

/-! ### Steering avoidance boundedness (claim C1) -/

def obN : ObstacleB := ⟨⟨0, 30⟩, 64, 64⟩

def obS : ObstacleB := ⟨⟨0, -30⟩, 64, 64⟩

/-- A merged avoidance config with blend strength 1 (the top of the
documented 0–1 range) and the default `π/3` max deviation angle. -/
noncomputable def cfgCE : AvoidanceConfig := ⟨60, 50, 1, Real.pi / 3⟩

theorem size_100 : (Vec.mk 100 0).size = 100 := by
  unfold Vec.size
  rw [sqrt_eval (by norm_num) (by norm_num : (0 : ℝ) ≤ 100)]

theorem size_0_30 : (Vec.mk 0 30).size = 30 := by
  unfold Vec.size
  rw [sqrt_eval (by norm_num) (by norm_num : (0 : ℝ) ≤ 30)]

theorem size_0_neg30 : (Vec.mk 0 (-30)).size = 30 := by
  unfold Vec.size
  rw [sqrt_eval (by norm_num) (by norm_num : (0 : ℝ) ≤ 30)]

theorem size_zero_vec : (Vec.mk 0 0).size = 0 := (Vec.size_eq_zero_iff _).mpr rfl

theorem hdetectCE :
    detectObstaclesAhead ⟨0, 0⟩ ⟨100, 0⟩ [obN, obS] cfgCE = [obN, obS] := by
  unfold detectObstaclesAhead
  rw [if_neg (by rw [size_100]; norm_num)]
  have hd1 : Vec.distance (Vec.mk 0 0) obN.pos = 30 := by
    show (Vec.mk (0 - 0) (0 - 30)).size = 30
    norm_num
    exact size_0_neg30
  have hd2 : Vec.distance (Vec.mk 0 0) obS.pos = 30 := by
    show (Vec.mk (0 - 0) (0 - -30)).size = 30
    norm_num
    exact size_0_30
  have hp : ∀ o ∈ [obN, obS],
      (decide (Vec.distance (Vec.mk 0 0) o.pos ≤ cfgCE.avoidanceRadius) &&
        (decide (0 < ((Vec.mk 100 0).normalize).dot ((o.pos.sub ⟨0, 0⟩).normalize)) ||
          decide (Vec.distance (Vec.mk 0 0) o.pos ≤
            cfgCE.avoidanceRadius * 0.6))) = true := by
    intro o ho
    simp only [Bool.and_eq_true, Bool.or_eq_true, decide_eq_true_eq]
    rcases List.mem_cons.mp ho with rfl | ho'
    · rw [hd1]
      exact ⟨by unfold cfgCE; norm_num, Or.inr (by unfold cfgCE; norm_num)⟩
    · rcases List.mem_cons.mp ho' with rfl | hn
      · rw [hd2]
        exact ⟨by unfold cfgCE; norm_num, Or.inr (by unfold cfgCE; norm_num)⟩
      · exact absurd hn (List.not_mem_nil o)
  rw [List.filter_eq_self.mpr hp]

theorem hnorm100 : (Vec.mk 100 0).normalize = ⟨1, 0⟩ := by
  unfold Vec.normalize
  rw [if_pos (by rw [size_100]; norm_num), size_100]
  norm_num

theorem hnormN : (Vec.mk 0 30).normalize = ⟨0, 1⟩ := by
  unfold Vec.normalize
  rw [if_pos (by rw [size_0_30]; norm_num), size_0_30]
  norm_num

theorem hnormS : (Vec.mk 0 (-30)).normalize = ⟨0, -1⟩ := by
  unfold Vec.normalize
  rw [if_pos (by rw [size_0_neg30]; norm_num), size_0_neg30]
  norm_num

theorem hcalcCE : calculateAvoidanceVector ⟨0, 0⟩ [obN, obS] ⟨100, 0⟩ cfgCE = ⟨0, 0⟩ := by
  have hsum : repulsionSum ⟨0, 0⟩ [obN, obS] cfgCE = ⟨0, 0⟩ := by
    unfold repulsionSum
    have hsubN : obN.pos.sub ⟨0, 0⟩ = Vec.mk 0 30 := by
      simp [obN, Vec.sub]
    have hsubS : obS.pos.sub ⟨0, 0⟩ = Vec.mk 0 (-30) := by
      simp [obS, Vec.sub]
    simp only [List.foldl_cons, List.foldl_nil, hsubN, hsubS, size_0_30, size_0_neg30,
      hnormN, hnormS, show (((30 : ℝ) = 0)) = False from eq_false (by norm_num), if_false]
    unfold cfgCE Vec.zero Vec.add Vec.scale
    simp only [Vec.mk.injEq]
    norm_num
  unfold calculateAvoidanceVector
  rw [if_neg (by norm_num), hsum]
  simp only []
  rw [if_neg (by rw [size_zero_vec]; norm_num)]

/-- C1 (counterexample): two obstacles at `(0,30)` and `(0,-30)` around an
agent at the origin give exactly cancelling repulsions, the blend collapses
to zero, and the fallback returns the perpendicular deflection `(0,100)`:
its deviation from the desired `(100,0)` is `π/2`, exceeding the configured
`maxAvoidanceAngle = π/3` (speed happens to be preserved here because the
blend strength is 1). -/
theorem C1_fallback_breaks_angle_bound :
    applyObstacleAvoidance ⟨0, 0⟩ ⟨100, 0⟩ [obN, obS] cfgCE = ⟨0, 100⟩ ∧
    angleBetween (applyObstacleAvoidance ⟨0, 0⟩ ⟨100, 0⟩ [obN, obS] cfgCE) ⟨100, 0⟩ =
      Real.pi / 2 ∧
    cfgCE.maxAvoidanceAngle < Real.pi / 2 := by
  have happ : applyObstacleAvoidance ⟨0, 0⟩ ⟨100, 0⟩ [obN, obS] cfgCE = ⟨0, 100⟩ := by
    unfold applyObstacleAvoidance
    rw [hdetectCE]
    rw [if_neg (by norm_num)]
    rw [hcalcCE, hnorm100]
    simp only []
    have hblend : ((Vec.mk 1 0).scale (1 - cfgCE.avoidanceForce)).add ⟨0, 0⟩ =
        Vec.mk 0 0 := by
      unfold cfgCE Vec.add Vec.scale
      simp only [Vec.mk.injEq]
      norm_num
    rw [hblend, if_neg (by rw [size_zero_vec]; norm_num),
      if_pos (by rw [size_100]; norm_num)]
    have hperp : (Vec.mk (-(0 : ℝ)) 100).normalize = ⟨0, 1⟩ := by
      have hsz : (Vec.mk (-(0 : ℝ)) 100).size = 100 := by
        unfold Vec.size
        rw [sqrt_eval (by norm_num) (by norm_num : (0 : ℝ) ≤ 100)]
      unfold Vec.normalize
      rw [if_pos (by rw [hsz]; norm_num), hsz]
      norm_num
    rw [hperp, size_100]
    unfold cfgCE Vec.scale
    simp only [Vec.mk.injEq]
    norm_num
  refine ⟨happ, ?_, ?_⟩
  · rw [happ]
    unfold angleBetween Vec.dot
    norm_num [Real.arccos_zero]
  · show Real.pi / 3 < Real.pi / 2
    linarith [Real.pi_pos]

/-- `v + 0 = v` for the embedded vectors. -/
theorem Vec.add_zero_vec (v : Vec) : v.add ⟨0, 0⟩ = v := by
  unfold Vec.add
  cases v
  norm_num

/-- A nonzero vector subtends angle `0` with itself. -/
theorem angleBetween_self {v : Vec} (h : 0 < v.size) : angleBetween v v = 0 := by
  unfold angleBetween
  rw [Vec.dot_self, sq, div_self (by positivity), Real.arccos_one]

/-- Renormalising and rescaling by a positive factor does not change the
angle to any other vector. -/
theorem angleBetween_normalize_scale {w : Vec} (v : Vec) {c : ℝ} (hc : 0 < c)
    (hw : 0 < w.size) : angleBetween (w.normalize.scale c) v = angleBetween w v := by
  unfold angleBetween
  congr 1
  rw [Vec.dot_scale_left, Vec.size_scale, Vec.normalize_size hw, abs_of_pos hc, mul_one,
    Vec.normalize_eq_scale hw, Vec.dot_scale_left,
    mul_div_mul_left _ _ (ne_of_gt hc), inv_mul_eq_div, div_div]

/-- The avoidance vector either vanishes, or has magnitude exactly
`avoidanceForce` and projects onto the desired direction at least
`avoidanceForce · cos(maxAvoidanceAngle)` — covering both the unclamped
branch (the `arccos` clamp is the identity there since `|dot| ≤ force ≤ 1`)
and the angle-limited branch, whose rotated unit vector has dot product
exactly `cos(maxAvoidanceAngle)` with the movement direction. -/
theorem calcAvoid_spec (enemyPos : Vec) (obstacles : List ObstacleB) (desired : Vec)
    (config : AvoidanceConfig) (hf0 : 0 ≤ config.avoidanceForce)
    (hf1 : config.avoidanceForce ≤ 1) (hm0 : 0 ≤ config.maxAvoidanceAngle)
    (hm2 : config.maxAvoidanceAngle ≤ Real.pi / 2) (hd : 0 < desired.size) :
    calculateAvoidanceVector enemyPos obstacles desired config = ⟨0, 0⟩ ∨
    ((calculateAvoidanceVector enemyPos obstacles desired config).size =
        config.avoidanceForce ∧
      config.avoidanceForce * Real.cos config.maxAvoidanceAngle ≤
        (calculateAvoidanceVector enemyPos obstacles desired config).dot
          desired.normalize) := by
  unfold calculateAvoidanceVector
  by_cases hlen : obstacles.length = 0
  · rw [if_pos hlen]
    left
    rfl
  · rw [if_neg hlen, if_pos hd]
    simp only []
    set av := repulsionSum enemyPos obstacles config with hav
    by_cases hs : 0 < av.size
    · rw [if_pos hs]
      set md := desired.normalize with hmddef
      have hmd1 : md.size = 1 := Vec.normalize_size hd
      rw [if_pos (by rw [hmd1]; norm_num)]
      set f := config.avoidanceForce with hfdef
      set a0 := av.normalize.scale f with ha0def
      have ha0 : a0.size = f := by
        rw [ha0def, Vec.size_scale, Vec.normalize_size hs, abs_of_nonneg hf0, mul_one]
      set dp := a0.dot md with hdpdef
      have habs : |dp| ≤ f := by
        calc |dp| ≤ a0.size * md.size := Vec.abs_dot_le _ _
          _ = f := by rw [ha0, hmd1, mul_one]
      have hdp1 : dp ≤ 1 := le_trans (le_abs_self _) (le_trans habs hf1)
      have hdpm1 : -1 ≤ dp := (abs_le.mp (le_trans habs hf1)).1
      have hclamp : max (-1) (min 1 dp) = dp := by
        rw [min_eq_right hdp1, max_eq_right hdpm1]
      rw [hclamp]
      have hcos0 : 0 ≤ Real.cos config.maxAvoidanceAngle :=
        Real.cos_nonneg_of_mem_Icc ⟨by linarith, hm2⟩
      by_cases hang : config.maxAvoidanceAngle < Real.arccos dp
      · rw [if_pos hang]
        set perp : Vec := ⟨-md.y, md.x⟩ with hperpdef
        have hmd_sq : md.x ^ 2 + md.y ^ 2 = 1 := by
          have h := Vec.size_sq md
          rw [hmd1] at h
          nlinarith [h]
        set sg : ℝ := if 0 ≤ a0.dot perp then 1 else -1 with hsgdef
        have hsg2 : sg ^ 2 = 1 := by
          rw [hsgdef]
          by_cases h : 0 ≤ a0.dot perp
          · rw [if_pos h]; norm_num
          · rw [if_neg h]; norm_num
        set w := (md.scale (Real.cos config.maxAvoidanceAngle)).add
          (perp.scale (sg * Real.sin config.maxAvoidanceAngle)) with hwdef
        have hw_sq : w.x ^ 2 + w.y ^ 2 = 1 := by
          rw [hwdef, hperpdef]
          unfold Vec.add Vec.scale
          simp only []
          have hpyth := Real.sin_sq_add_cos_sq config.maxAvoidanceAngle
          linear_combination (Real.cos config.maxAvoidanceAngle ^ 2 +
              sg ^ 2 * Real.sin config.maxAvoidanceAngle ^ 2) * hmd_sq +
            Real.sin config.maxAvoidanceAngle ^ 2 * hsg2 + hpyth
        have hw_size : w.size = 1 := by
          unfold Vec.size
          rw [hw_sq, Real.sqrt_one]
        have hw_norm : w.normalize = w.scale 1 := by
          rw [Vec.normalize_eq_scale (by rw [hw_size]; norm_num), hw_size, inv_one]
        right
        constructor
        · rw [Vec.size_scale, Vec.normalize_size (by rw [hw_size]; norm_num),
            abs_of_nonneg hf0, mul_one]
        · have hpm : perp.dot md = 0 := by
            rw [hperpdef]
            unfold Vec.dot
            ring
          have hmm : md.dot md = 1 := by
            rw [Vec.dot_self, hmd1]
            norm_num
          have hdot : (w.normalize.scale f).dot md =
              f * Real.cos config.maxAvoidanceAngle := by
            rw [Vec.dot_scale_left, hw_norm, Vec.dot_scale_left, hwdef,
              Vec.dot_add_left, Vec.dot_scale_left, Vec.dot_scale_left, hmm, hpm]
            ring
          rw [hdot]
      · rw [if_neg hang]
        push_neg at hang
        right
        refine ⟨ha0, ?_⟩
        have hcosθ : Real.cos config.maxAvoidanceAngle ≤ dp := by
          have h1 : Real.cos config.maxAvoidanceAngle ≤ Real.cos (Real.arccos dp) :=
            Real.cos_le_cos_of_nonneg_of_le_pi (Real.arccos_nonneg dp)
              (by linarith [Real.pi_pos]) hang
          rwa [Real.cos_arccos hdpm1 hdp1] at h1
        nlinarith
    · rw [if_neg hs]
      left
      have h0 : av.size = 0 := le_antisymm (not_lt.mp hs) (Vec.size_nonneg av)
      exact (Vec.size_eq_zero_iff av).mp h0

/-- C1 (amended): with the merged config in its documented range
(`avoidanceForce` in `[0, 1]`, `maxAvoidanceAngle` in `[0, π/2]`) and a
nonzero desired velocity, `applyObstacleAvoidance` either returns a velocity
of the same magnitude deviating from the desired direction by at most
`maxAvoidanceAngle`, or — exactly when the blend collapses to the zero
vector — returns the perpendicular fallback scaled by
`avoidanceForce · ‖desired‖`. -/
theorem C1_avoidance_amended (enemyPos desired : Vec) (obstacles : List ObstacleB)
    (config : AvoidanceConfig) (hf0 : 0 ≤ config.avoidanceForce)
    (hf1 : config.avoidanceForce ≤ 1) (hm0 : 0 ≤ config.maxAvoidanceAngle)
    (hm2 : config.maxAvoidanceAngle ≤ Real.pi / 2) (hd : 0 < desired.size) :
    ((applyObstacleAvoidance enemyPos desired obstacles config).size = desired.size ∧
      angleBetween (applyObstacleAvoidance enemyPos desired obstacles config) desired ≤
        config.maxAvoidanceAngle) ∨
    applyObstacleAvoidance enemyPos desired obstacles config =
      (Vec.mk (-desired.y) desired.x).normalize.scale
        (desired.size * config.avoidanceForce) := by
  unfold applyObstacleAvoidance
  simp only []
  set detected := detectObstaclesAhead enemyPos desired obstacles config with hdet
  by_cases hlen : detected.length = 0
  · rw [if_pos hlen]
    left
    exact ⟨rfl, by rw [angleBetween_self hd]; exact hm0⟩
  · rw [if_neg hlen]
    set av := calculateAvoidanceVector enemyPos detected desired config with hav
    have hmd1 : desired.normalize.size = 1 := Vec.normalize_size hd
    set blended := (desired.normalize.scale (1 - config.avoidanceForce)).add av with hbl
    have hcos0 : 0 ≤ Real.cos config.maxAvoidanceAngle :=
      Real.cos_nonneg_of_mem_Icc ⟨by linarith, hm2⟩
    have hcos1 : Real.cos config.maxAvoidanceAngle ≤ 1 := Real.cos_le_one _
    rcases calcAvoid_spec enemyPos detected desired config hf0 hf1 hm0 hm2 hd with
      hz | ⟨hsz, hdot⟩
    · rw [← hav] at hz
      have hble : blended = desired.normalize.scale (1 - config.avoidanceForce) := by
        rw [hbl, hz, Vec.add_zero_vec]
      by_cases hflt : config.avoidanceForce < 1
      · have h1f : (0:ℝ) < 1 - config.avoidanceForce := by linarith
        have hbs : 0 < blended.size := by
          rw [hble, Vec.size_scale, abs_of_pos h1f, hmd1, mul_one]
          exact h1f
        rw [if_pos hbs]
        left
        constructor
        · rw [Vec.size_scale, Vec.normalize_size hbs, abs_of_pos hd, mul_one]
        · rw [angleBetween_normalize_scale desired hd hbs, hble,
            angleBetween_normalize_scale desired h1f hd, angleBetween_self hd]
          exact hm0
      · have hfeq : config.avoidanceForce = 1 := le_antisymm hf1 (not_lt.mp hflt)
        have hbz : blended = ⟨0, 0⟩ := by
          rw [hble, hfeq]
          unfold Vec.scale
          norm_num
        have hbs0 : ¬ 0 < blended.size := by
          rw [hbz]
          rw [show (Vec.mk 0 0).size = 0 from (Vec.size_eq_zero_iff _).mpr rfl]
          norm_num
        rw [if_neg hbs0, if_pos hd]
        right
        rfl
    · rw [← hav] at hsz hdot
      have hbdot : Real.cos config.maxAvoidanceAngle ≤ blended.dot desired.normalize := by
        rw [hbl, Vec.dot_add_left, Vec.dot_scale_left, Vec.dot_self, hmd1]
        nlinarith [hdot]
      have hbs1 : blended.size ≤ 1 := by
        calc blended.size ≤
              (desired.normalize.scale (1 - config.avoidanceForce)).size + av.size := by
              rw [hbl]; exact Vec.size_add_le _ _
          _ = 1 := by
              rw [Vec.size_scale, hmd1, hsz,
                abs_of_nonneg (by linarith : (0:ℝ) ≤ 1 - config.avoidanceForce)]
              ring
      have hbspos : 0 < blended.size := by
        by_cases hflt : config.avoidanceForce < 1
        · have hd2 : 0 < blended.dot desired.normalize := by
            rw [hbl, Vec.dot_add_left, Vec.dot_scale_left, Vec.dot_self, hmd1]
            nlinarith [hdot]
          have habs := Vec.abs_dot_le blended desired.normalize
          rw [hmd1, mul_one] at habs
          linarith [le_abs_self (blended.dot desired.normalize)]
        · have hfeq : config.avoidanceForce = 1 := le_antisymm hf1 (not_lt.mp hflt)
          have hbe : blended = av := by
            rw [hbl, hfeq]
            unfold Vec.scale Vec.add
            cases av
            norm_num
          rw [hbe, hsz, hfeq]
          norm_num
      rw [if_pos hbspos]
      left
      constructor
      · rw [Vec.size_scale, Vec.normalize_size hbspos, abs_of_pos hd, mul_one]
      · rw [angleBetween_normalize_scale desired hd hbspos]
        unfold angleBetween
        have hdes : blended.dot desired = desired.size * (blended.dot desired.normalize) := by
          conv_lhs => rw [show desired = desired.normalize.scale desired.size from
            (Vec.normalize_scale_size hd).symm]
          rw [Vec.dot_comm, Vec.dot_scale_left, Vec.dot_comm desired.normalize blended]
        have hratio : Real.cos config.maxAvoidanceAngle ≤
            blended.dot desired / (blended.size * desired.size) := by
          rw [hdes, mul_comm blended.size desired.size,
            mul_div_mul_left _ _ (ne_of_gt hd), le_div_iff₀ hbspos]
          nlinarith [hbdot, mul_le_mul_of_nonneg_left hbs1 hcos0]
        calc Real.arccos (blended.dot desired / (blended.size * desired.size)) ≤
              Real.arccos (Real.cos config.maxAvoidanceAngle) := arccos_antitone hratio
          _ = config.maxAvoidanceAngle :=
              Real.arccos_cos hm0 (by linarith [Real.pi_pos])

/-- Closed instance for `C1_avoidance_amended`: desired velocity `(100, 0)`,
force `1/2`, angle cap `1` radian, no obstacles. -/
theorem C1_avoidance_amended_witness :
    0 < (Vec.mk 100 0).size ∧
    (((applyObstacleAvoidance ⟨0, 0⟩ ⟨100, 0⟩ []
          ⟨60, 50, 1/2, 1⟩).size = (Vec.mk 100 0).size ∧
        angleBetween (applyObstacleAvoidance ⟨0, 0⟩ ⟨100, 0⟩ []
          ⟨60, 50, 1/2, 1⟩) ⟨100, 0⟩ ≤
          (AvoidanceConfig.mk 60 50 (1/2) 1).maxAvoidanceAngle) ∨
      applyObstacleAvoidance ⟨0, 0⟩ ⟨100, 0⟩ [] ⟨60, 50, 1/2, 1⟩ =
        (Vec.mk (-(Vec.mk (100:ℝ) 0).y) (Vec.mk (100:ℝ) 0).x).normalize.scale
          ((Vec.mk 100 0).size * (AvoidanceConfig.mk 60 50 (1/2) 1).avoidanceForce)) :=
  ⟨by rw [size_100]; norm_num,
    C1_avoidance_amended ⟨0, 0⟩ ⟨100, 0⟩ [] ⟨60, 50, 1/2, 1⟩
      (by norm_num) (by norm_num) (by norm_num)
      (show (1:ℝ) ≤ Real.pi / 2 from by linarith [Real.pi_gt_three])
      (by rw [size_100]; norm_num)⟩

end Nav
